import Mathlib

/-!
# ReactPhysics3D: the rope scene of the testbed and the `PhysicsCommon` factory

A shallow embedding of `testbed/scenes/rope/RopeScene.cpp` and of the object
sets declared in `src/engine/PhysicsCommon.h`.

* Coordinates are rationals: the geometry is computed in exact arithmetic.
* The constants of the absent header `RopeScene.h` (`NB_ROPES`,
  `NB_CAPSULES_PER_ROPE`, `CAPSULE_HEIGHT`, `BOX_SIZE`) are the fields of
  `Constants`.
* A rigid body is named by the scene member that owns it (`mCapsules[k]`,
  `mBox1`, `mBox2`, `mPlank`).
* Calls into the engine and into the base class `SceneDemo` are recorded, in
  order, in a call log.
-/

namespace RopeScene

/-! ## Geometry -/

/-- A vector of `rp3d::Vector3`, with exact rational coordinates. -/
@[ext]
structure Vector3 where
  x : ℚ
  y : ℚ
  z : ℚ
deriving DecidableEq

/-- Componentwise sum, `Vector3::operator+` (and `+=`). -/
instance : Add Vector3 where
  add a b := ⟨a.x + b.x, a.y + b.y, a.z + b.z⟩

/-- Product of a vector by a number on the right, `vector * number`. -/
instance : HMul Vector3 ℚ Vector3 where
  hMul a q := ⟨a.x * q, a.y * q, a.z * q⟩

/-- Product of a vector by a number on the left, `number * vector`. -/
instance : HMul ℚ Vector3 Vector3 where
  hMul q a := ⟨q * a.x, q * a.y, q * a.z⟩

/-- Square of the Euclidean distance between two points. Two points are at
distance `d ≥ 0` exactly when this is `d ^ 2`. -/
def distSq (a b : Vector3) : ℚ :=
  (a.x - b.x) ^ 2 + (a.y - b.y) ^ 2 + (a.z - b.z) ^ 2

/-- The two orientations the scene uses. `fromEulerAngles` keeps its three
angles (radians) as rational multiples of `PI_RP3D`. -/
inductive Quaternion where
  | identity
  | fromEulerAngles (angleX angleY angleZ : ℚ)
deriving DecidableEq

/-- A value of `rp3d::Transform`: a position and an orientation. -/
structure Transform where
  position : Vector3
  orientation : Quaternion
deriving DecidableEq

/-! ## The scene -/

/-- The constants of namespace `ropescene`, declared in `RopeScene.h`. -/
structure Constants where
  NB_ROPES : Nat
  NB_CAPSULES_PER_ROPE : Nat
  CAPSULE_HEIGHT : ℚ
  BOX_SIZE : ℚ

/-- The rigid bodies of the scene: `mCapsules[capsuleIndex]->getRigidBody()`,
`mBox1->getRigidBody()`, `mBox2->getRigidBody()`, `mPlank->getRigidBody()`. -/
inductive Body where
  | capsule (capsuleIndex : Nat)
  | box1
  | box2
  | plank
deriving DecidableEq

/-- The transform of every body. -/
abbrev Transforms := Body → Transform

/-- The effect of `setTransform` on one body. -/
def setTransform (t : Transforms) (b : Body) (tr : Transform) : Transforms :=
  fun b' => if b' = b then tr else t b'

/-- The fields of `rp3d::BallAndSocketJointInfo` the scene sets. -/
structure BallAndSocketJointInfo where
  body1 : Body
  body2 : Body
  anchorPointWorldSpace : Vector3
  isCollisionEnabled : Bool
deriving DecidableEq

/-- The constructor `BallAndSocketJointInfo(body1, body2, anchor)`; the engine's
`JointInfo` starts with collision between the two bodies enabled. -/
def BallAndSocketJointInfo.create (body1 body2 : Body) (anchor : Vector3) :
    BallAndSocketJointInfo :=
  ⟨body1, body2, anchor, true⟩

/-- A call recorded in the call log. -/
inductive Call where
  | destroyJoint (joint : BallAndSocketJointInfo)
  | destroyRigidBody (body : Body)
  | destroyPhysicsWorld
  | applyLocalTorque (body : Body) (torque : Vector3)
  | sceneDemoReset
  | sceneDemoUpdatePhysics
deriving DecidableEq

/-- The state of a `RopeScene` object. -/
structure Scene where
  /-- Bodies pushed to `mPhysicsObjects`, in creation order. -/
  mPhysicsObjects : List Body
  /-- Transform of each body. -/
  transform : Transforms
  /-- Joints pushed to `mBallAndSocketJoints`, in creation order. -/
  mBallAndSocketJoints : List BallAndSocketJointInfo
  nbIterations : Nat
  nbTorqueIterations : Nat
  /-- Calls made so far to the engine and to the base class. -/
  calls : List Call

/-- Index `r * NB_CAPSULES_PER_ROPE + i` of capsule `i` of rope `r` in
`mCapsules`. The array has `NB_ROPES * NB_CAPSULES_PER_ROPE` entries, so the
`int` product never wraps. -/
def capsuleIndex (c : Constants) (r i : Nat) : Nat :=
  r * c.NB_CAPSULES_PER_ROPE + i

/-! ### `RopeScene::createJoints` -/

/-- Body of the inner loop of `createJoints`: the joint between capsules `i`
and `i + 1` of rope `r`. -/
def capsuleJoint (c : Constants) (t : Transforms) (r i : Nat) : BallAndSocketJointInfo :=
  let body1 := Body.capsule (capsuleIndex c r i)
  let body2 := Body.capsule (capsuleIndex c r i + 1)
  let body1Position := (t body1).position
  let body2Position := (t body2).position
  let anchorPointWorldSpace := (1 / 2 : ℚ) * (body1Position + body2Position)
  let jointInfo := BallAndSocketJointInfo.create body1 body2 anchorPointWorldSpace
  { jointInfo with isCollisionEnabled := false }

/-- End of the outer loop of `createJoints`: the joint between the last capsule
of rope `r` and its box. The index of that capsule is a natural number as soon
as a rope has a capsule. -/
def boxJoint (c : Constants) (t : Transforms) (r : Nat) : BallAndSocketJointInfo :=
  let body1 := Body.capsule (r * c.NB_CAPSULES_PER_ROPE + c.NB_CAPSULES_PER_ROPE - 1)
  let body2 := if r > 0 then Body.box2 else Body.box1
  let body1Position := (t body1).position
  let anchorPointWorldSpace :=
    body1Position + Vector3.mk 0 (-c.CAPSULE_HEIGHT * (1 / 2)) 0
  let jointInfo := BallAndSocketJointInfo.create body1 body2 anchorPointWorldSpace
  { jointInfo with isCollisionEnabled := false }

/-- The joints `createJoints` pushes to `mBallAndSocketJoints`, starting from the
vector `joints`, when the bodies have the transforms `t`. -/
def createJointsFrom (c : Constants) (t : Transforms)
    (joints : List BallAndSocketJointInfo) : List BallAndSocketJointInfo :=
  (List.range c.NB_ROPES).foldl
    (fun joints r =>
      let joints := (List.range (c.NB_CAPSULES_PER_ROPE - 1)).foldl
        (fun joints i => joints ++ [capsuleJoint c t r i]) joints
      joints ++ [boxJoint c t r])
    joints

/-- The method `createJoints`, called once by the constructor on the empty vector. -/
def createJoints (c : Constants) (t : Transforms) : List BallAndSocketJointInfo :=
  createJointsFrom c t []

/-! ### `RopeScene::initializeBodiesPositions` -/

/-- Value of `initPosition` of rope `r` before the loop over its capsules. -/
def ropeInitPosition (c : Constants) (r : Nat) : Vector3 :=
  let initPosition : Vector3 := ⟨if r = 0 then -5 else 25, 15, 0⟩
  match r with
  | 1 => initPosition + (Vector3.mk c.BOX_SIZE 0 (-c.BOX_SIZE)) * (1 / 2 : ℚ)
  | 2 => initPosition + (Vector3.mk c.BOX_SIZE 0 c.BOX_SIZE) * (1 / 2 : ℚ)
  | 3 => initPosition + (Vector3.mk (-c.BOX_SIZE) 0 c.BOX_SIZE) * (1 / 2 : ℚ)
  | 4 => initPosition + (Vector3.mk (-c.BOX_SIZE) 0 (-c.BOX_SIZE)) * (1 / 2 : ℚ)
  | _ => initPosition

/-- One iteration of the loop over the capsules of rope `r`: `initPosition` moves
down by `CAPSULE_HEIGHT`, then the capsule gets it with the identity orientation. -/
def initCapsuleStep (c : Constants) (r : Nat) (acc : Vector3 × Transforms) (i : Nat) :
    Vector3 × Transforms :=
  let initPosition := acc.1 + Vector3.mk 0 (-c.CAPSULE_HEIGHT) 0
  (initPosition,
    setTransform acc.2 (Body.capsule (capsuleIndex c r i)) ⟨initPosition, Quaternion.identity⟩)

/-- One iteration of the loop over the ropes. -/
def initRopeStep (c : Constants) (t : Transforms) (r : Nat) : Transforms :=
  ((List.range c.NB_CAPSULES_PER_ROPE).foldl (initCapsuleStep c r)
    (ropeInitPosition c r, t)).2

/-- The method `initializeBodiesPositions`. -/
def initializeBodiesPositions (c : Constants) (t : Transforms) : Transforms :=
  let t := (List.range c.NB_ROPES).foldl (initRopeStep c) t
  let box1Position : Vector3 :=
    ⟨-5, 15 - c.NB_CAPSULES_PER_ROPE * c.CAPSULE_HEIGHT - c.BOX_SIZE * (1 / 2), 0⟩
  let t := setTransform t Body.box1 ⟨box1Position, Quaternion.identity⟩
  let box2Position : Vector3 :=
    ⟨25, 15 - c.NB_CAPSULES_PER_ROPE * c.CAPSULE_HEIGHT - c.BOX_SIZE * (1 / 2), 0⟩
  let t := setTransform t Body.box2 ⟨box2Position, Quaternion.identity⟩
  let plankPosition : Vector3 := ⟨-9, 5, 0⟩
  setTransform t Body.plank ⟨plankPosition, Quaternion.identity⟩

/-! ### `RopeScene::reset` -/

/-- The call `SceneDemo::reset()` of the base class. The base class is not part
of the rope scene: what it does to the transforms is the parameter `base`, and it
cannot reach the members `nbIterations` and `nbTorqueIterations`. -/
def sceneDemoReset (base : Transforms → Transforms) (s : Scene) : Scene :=
  { s with transform := base s.transform, calls := s.calls ++ [Call.sceneDemoReset] }

/-- The orientation `Quaternion::fromEulerAngles(0, 0, -90 * PI_RP3D / 180.0f)`,
the angle written as the multiple `-90 / 180` of `PI_RP3D`. -/
def resetOrientation : Quaternion :=
  Quaternion.fromEulerAngles 0 0 (-90 / 180)

/-- Body of the loop of `reset`, for the index `i` into `mCapsules`. -/
def resetCapsuleStep (c : Constants) (s : Scene) (i : Nat) : Scene :=
  let initPosition : Vector3 :=
    ⟨-5 - ((i : ℚ) + 1 / 2) * c.CAPSULE_HEIGHT, 15 - c.CAPSULE_HEIGHT, 0⟩
  { s with transform :=
      setTransform s.transform (Body.capsule i) ⟨initPosition, resetOrientation⟩ }

/-- The method `reset`. Its loop `for (int i=1; i<NB_CAPSULES_PER_ROPE-1; i++)` runs
over `i = 1, ..., NB_CAPSULES_PER_ROPE - 2`. -/
def reset (c : Constants) (base : Transforms → Transforms) (s : Scene) : Scene :=
  let s := sceneDemoReset base s
  let s := { s with transform := initializeBodiesPositions c s.transform }
  let s := { s with nbIterations := 0 }
  let s := (List.range' 1 (c.NB_CAPSULES_PER_ROPE - 1 - 1)).foldl (resetCapsuleStep c) s
  let box1Position : Vector3 :=
    ⟨-5 - ((c.NB_CAPSULES_PER_ROPE : ℚ) + 1 / 2) * c.CAPSULE_HEIGHT - c.BOX_SIZE * (1 / 2),
      15 - c.CAPSULE_HEIGHT, 0⟩
  { s with transform := setTransform s.transform Body.box1 ⟨box1Position, resetOrientation⟩ }

/-! ### `RopeScene::updatePhysics` -/

/-- The call `mBox2->getRigidBody()->applyLocalTorque(torque)` and its like. -/
def applyLocalTorque (s : Scene) (b : Body) (torque : Vector3) : Scene :=
  { s with calls := s.calls ++ [Call.applyLocalTorque b torque] }

/-- The call `SceneDemo::updatePhysics()` of the base class, which steps the world:
what the step does to the transforms is the parameter `step`. -/
def sceneDemoUpdatePhysics (step : Transforms → Transforms) (s : Scene) : Scene :=
  { s with transform := step s.transform, calls := s.calls ++ [Call.sceneDemoUpdatePhysics] }

/-- The part of `updatePhysics` that runs before the call to the base class.
The counter `nbIterations` is an unsigned machine integer of `counterBits` bits
(its declaration is in `RopeScene.h`), so `nbIterations++` wraps. -/
def updatePhysicsBeforeStep (counterBits : Nat) (s : Scene) : Scene :=
  let s := if s.nbIterations < s.nbTorqueIterations then
      applyLocalTorque s Body.box2 ⟨0, 1000, 0⟩
    else s
  { s with nbIterations := (s.nbIterations + 1) % 2 ^ counterBits }

/-- The method `updatePhysics`. -/
def updatePhysics (counterBits : Nat) (step : Transforms → Transforms) (s : Scene) : Scene :=
  sceneDemoUpdatePhysics step (updatePhysicsBeforeStep counterBits s)

/-- What the host application does with a scene between its construction and
its destruction. -/
inductive Event where
  | updatePhysics
  | reset
deriving DecidableEq

/-- The scene after one event. -/
def handle (c : Constants) (counterBits : Nat) (base step : Transforms → Transforms)
    (s : Scene) : Event → Scene
  | Event.updatePhysics => updatePhysics counterBits step s
  | Event.reset => reset c base s

/-- The scene after a sequence of events. -/
def run (c : Constants) (counterBits : Nat) (base step : Transforms → Transforms)
    (s : Scene) (events : List Event) : Scene :=
  events.foldl (handle c counterBits base step) s

/-! ### Constructor and destructor -/

/-- The bodies the constructor creates, in the order it pushes them to
`mPhysicsObjects`: the capsules rope by rope, box 1, box 2, the plank. -/
def createdBodies (c : Constants) : List Body :=
  let objects := (List.range c.NB_ROPES).foldl
    (fun objects r =>
      (List.range c.NB_CAPSULES_PER_ROPE).foldl
        (fun objects i => objects ++ [Body.capsule (capsuleIndex c r i)]) objects)
    []
  let objects := objects ++ [Body.box1]
  let objects := objects ++ [Body.box2]
  objects ++ [Body.plank]

/-- The constructor `RopeScene::RopeScene`; `t0` gives the transforms the bodies
have when they are created. -/
def construct (c : Constants) (t0 : Transforms) : Scene :=
  let t := initializeBodiesPositions c t0
  { mPhysicsObjects := createdBodies c
    transform := t
    mBallAndSocketJoints := createJoints c t
    nbIterations := 0
    nbTorqueIterations := 200
    calls := [] }

/-- The destructor `RopeScene::~RopeScene`. -/
def destructor (c : Constants) (s : Scene) : Scene :=
  let calls := s.mBallAndSocketJoints.foldl
    (fun calls joint => calls ++ [Call.destroyJoint joint]) s.calls
  let calls := (List.range c.NB_ROPES).foldl
    (fun calls r =>
      (List.range c.NB_CAPSULES_PER_ROPE).foldl
        (fun calls i => calls ++ [Call.destroyRigidBody (Body.capsule (capsuleIndex c r i))])
        calls)
    calls
  let calls := calls ++ [Call.destroyRigidBody Body.box1]
  let calls := calls ++ [Call.destroyRigidBody Body.box2]
  let calls := calls ++ [Call.destroyPhysicsWorld]
  { s with calls := calls }

/-! ### The joint graph -/

/-- The joint `j` links the bodies `a` and `b`, in either order. -/
def links (j : BallAndSocketJointInfo) (a b : Body) : Bool :=
  (j.body1 = a ∧ j.body2 = b) ∨ (j.body1 = b ∧ j.body2 = a)

/-- Some joint of the list links `a` and `b`. -/
def Linked (joints : List BallAndSocketJointInfo) (a b : Body) : Prop :=
  ∃ j ∈ joints, links j a b = true

/-- There is a path of joints from `a` to `b`. -/
def Connected (joints : List BallAndSocketJointInfo) (a b : Body) : Prop :=
  Relation.ReflTransGen (Linked joints) a b

/-- The first group: the capsules of rope 0 and box 1. -/
def inGroup1 (c : Constants) : Body → Bool
  | Body.capsule k => k < c.NB_CAPSULES_PER_ROPE
  | Body.box1 => true
  | _ => false

/-- The second group: the capsules of ropes `1, ..., NB_ROPES - 1` and box 2. -/
def inGroup2 (c : Constants) : Body → Bool
  | Body.capsule k =>
      c.NB_CAPSULES_PER_ROPE ≤ k ∧ k < c.NB_ROPES * c.NB_CAPSULES_PER_ROPE
  | Body.box2 => true
  | _ => false

/-- Modelled from the spec: the broad phase, whose code is absent, leaves out a
"pair explicitly disabled, e.g. by a joint that disables collision between its
bodies". -/
def isPairDisabled (joints : List BallAndSocketJointInfo) (a b : Body) : Bool :=
  joints.any (fun j => links j a b && !j.isCollisionEnabled)

/-! ### Concrete instances -/

/-- A choice of the constants of `RopeScene.h` for concrete instances: five ropes
(the five cases `r = 0, ..., 4` of `initializeBodiesPositions`) of twenty
capsules. -/
def exampleConstants : Constants :=
  { NB_ROPES := 5, NB_CAPSULES_PER_ROPE := 20, CAPSULE_HEIGHT := 1 / 2, BOX_SIZE := 2 }

/-- Every body at the origin with the identity orientation. -/
def originTransforms : Transforms :=
  fun _ => ⟨⟨0, 0, 0⟩, Quaternion.identity⟩

end RopeScene

/-! ## The factory `PhysicsCommon` -/

namespace reactphysics3d

/-- Address of an object allocated by the memory manager. -/
abbrev Ptr := Nat

/-- The kinds of objects `PhysicsCommon` keeps a set of. -/
inductive Kind where
  | physicsWorld
  | sphereShape
  | boxShape
  | capsuleShape
  | convexMeshShape
  | concaveMeshShape
  | heightFieldShape
  | polyhedronMesh
  | triangleMesh
  | logger
  | profiler
deriving DecidableEq

/-- The object sets of class `PhysicsCommon`; a set is kept as the list of its
elements. -/
structure PhysicsCommon where
  mPhysicsWorlds : List Ptr
  mSphereShapes : List Ptr
  mBoxShapes : List Ptr
  mCapsuleShapes : List Ptr
  mConvexMeshShapes : List Ptr
  mConcaveMeshShapes : List Ptr
  mHeightFieldShapes : List Ptr
  mPolyhedronMeshes : List Ptr
  mTriangleMeshes : List Ptr
  mLoggers : List Ptr
  mProfilers : List Ptr

namespace PhysicsCommon

/-- The set that holds the objects of a kind. -/
def objects (pc : PhysicsCommon) : Kind → List Ptr
  | Kind.physicsWorld => pc.mPhysicsWorlds
  | Kind.sphereShape => pc.mSphereShapes
  | Kind.boxShape => pc.mBoxShapes
  | Kind.capsuleShape => pc.mCapsuleShapes
  | Kind.convexMeshShape => pc.mConvexMeshShapes
  | Kind.concaveMeshShape => pc.mConcaveMeshShapes
  | Kind.heightFieldShape => pc.mHeightFieldShapes
  | Kind.polyhedronMesh => pc.mPolyhedronMeshes
  | Kind.triangleMesh => pc.mTriangleMeshes
  | Kind.logger => pc.mLoggers
  | Kind.profiler => pc.mProfilers

/-- Modelled from the spec: the constructor of `PhysicsCommon`, whose body is
absent (`PhysicsCommon.cpp`); a new factory has allocated nothing. -/
def new : PhysicsCommon :=
  ⟨[], [], [], [], [], [], [], [], [], [], []⟩

/-- Modelled from the spec: the bodies of the `create*` methods are absent
(`PhysicsCommon.cpp`). Each is declared to "create and return" an object of its
kind; `p` is the address of the new object, which joins the set of that kind.
In order: `createPhysicsWorld`, `createSphereShape`, `createBoxShape`,
`createCapsuleShape`, `createConvexMeshShape`, `createConcaveMeshShape`,
`createHeightFieldShape`, `createPolyhedronMesh`, `createTriangleMesh`,
`createLogger`, `createProfiler`. -/
def create (pc : PhysicsCommon) (k : Kind) (p : Ptr) : PhysicsCommon :=
  match k with
  | Kind.physicsWorld => { pc with mPhysicsWorlds := pc.mPhysicsWorlds.insert p }
  | Kind.sphereShape => { pc with mSphereShapes := pc.mSphereShapes.insert p }
  | Kind.boxShape => { pc with mBoxShapes := pc.mBoxShapes.insert p }
  | Kind.capsuleShape => { pc with mCapsuleShapes := pc.mCapsuleShapes.insert p }
  | Kind.convexMeshShape => { pc with mConvexMeshShapes := pc.mConvexMeshShapes.insert p }
  | Kind.concaveMeshShape => { pc with mConcaveMeshShapes := pc.mConcaveMeshShapes.insert p }
  | Kind.heightFieldShape => { pc with mHeightFieldShapes := pc.mHeightFieldShapes.insert p }
  | Kind.polyhedronMesh => { pc with mPolyhedronMeshes := pc.mPolyhedronMeshes.insert p }
  | Kind.triangleMesh => { pc with mTriangleMeshes := pc.mTriangleMeshes.insert p }
  | Kind.logger => { pc with mLoggers := pc.mLoggers.insert p }
  | Kind.profiler => { pc with mProfilers := pc.mProfilers.insert p }

/-- Modelled from the spec: the bodies of the `destroy*` methods are absent
(`PhysicsCommon.cpp`). Each is declared to "destroy" the object it is given, which
leaves the set of its kind. In order: `destroyPhysicsWorld`,
`destroySphereShape`, `destroyBoxShape`, `destroyCapsuleShape`,
`destroyConvexMeshShape`, `destroyConcaveMeshShape`, `destroyHeightFieldShape`,
`destroyPolyhedronMesh`, `destroyTriangleMesh`, `destroyLogger`,
`destroyProfiler`. -/
def destroy (pc : PhysicsCommon) (k : Kind) (p : Ptr) : PhysicsCommon :=
  match k with
  | Kind.physicsWorld => { pc with mPhysicsWorlds := pc.mPhysicsWorlds.filter (fun q => q ≠ p) }
  | Kind.sphereShape => { pc with mSphereShapes := pc.mSphereShapes.filter (fun q => q ≠ p) }
  | Kind.boxShape => { pc with mBoxShapes := pc.mBoxShapes.filter (fun q => q ≠ p) }
  | Kind.capsuleShape => { pc with mCapsuleShapes := pc.mCapsuleShapes.filter (fun q => q ≠ p) }
  | Kind.convexMeshShape => { pc with mConvexMeshShapes := pc.mConvexMeshShapes.filter (fun q => q ≠ p) }
  | Kind.concaveMeshShape => { pc with mConcaveMeshShapes := pc.mConcaveMeshShapes.filter (fun q => q ≠ p) }
  | Kind.heightFieldShape => { pc with mHeightFieldShapes := pc.mHeightFieldShapes.filter (fun q => q ≠ p) }
  | Kind.polyhedronMesh => { pc with mPolyhedronMeshes := pc.mPolyhedronMeshes.filter (fun q => q ≠ p) }
  | Kind.triangleMesh => { pc with mTriangleMeshes := pc.mTriangleMeshes.filter (fun q => q ≠ p) }
  | Kind.logger => { pc with mLoggers := pc.mLoggers.filter (fun q => q ≠ p) }
  | Kind.profiler => { pc with mProfilers := pc.mProfilers.filter (fun q => q ≠ p) }

/-- Modelled from the spec: the body of `release` is absent (`PhysicsCommon.cpp`);
this is its loop over the set of one kind, which destroys every object the set
holds when the loop starts. -/
def destroyAll (pc : PhysicsCommon) (k : Kind) : PhysicsCommon :=
  (pc.objects k).foldl (fun pc p => pc.destroy k p) pc

/-- Modelled from the spec: the body of `release` is absent (`PhysicsCommon.cpp`);
it is declared to "destroy and release everything that has been allocated", so
it destroys, kind after kind, every object its set still holds. -/
def release (pc : PhysicsCommon) : PhysicsCommon :=
  [Kind.physicsWorld, Kind.sphereShape, Kind.boxShape, Kind.capsuleShape,
    Kind.convexMeshShape, Kind.concaveMeshShape, Kind.heightFieldShape,
    Kind.polyhedronMesh, Kind.triangleMesh, Kind.logger, Kind.profiler].foldl destroyAll pc

end PhysicsCommon

/-- A call of a `create*` or `destroy*` method of `PhysicsCommon`; for a creation
`p` is the address the method returns. -/
inductive Op where
  | create (k : Kind) (p : Ptr)
  | destroy (k : Kind) (p : Ptr)
deriving DecidableEq

/-- The factory after one call. -/
def PhysicsCommon.apply (pc : PhysicsCommon) : Op → PhysicsCommon
  | Op.create k p => pc.create k p
  | Op.destroy k p => pc.destroy k p

/-- The factory after a sequence of calls on a new factory. -/
def PhysicsCommon.after (ops : List Op) : PhysicsCommon :=
  ops.foldl PhysicsCommon.apply PhysicsCommon.new

/-- The object `p` of kind `k` has been created and not destroyed since: some
call created it and no later call destroyed it. -/
def CreatedNotDestroyed (ops : List Op) (k : Kind) (p : Ptr) : Prop :=
  ∃ pre post, ops = pre ++ Op.create k p :: post ∧ Op.destroy k p ∉ post
end reactphysics3d

/-! ## Loops that push to a vector -/

namespace RopeScene

theorem foldl_push_eq_map {α β : Type} (f : α → β) (l : List α) (init : List β) :
    l.foldl (fun acc x => acc ++ [f x]) init = init ++ l.map f := by
  induction l generalizing init with
  | nil => simp
  | cons a l ih => simp [ih]

theorem foldl_append_eq_flatMap {α β : Type} (block : α → List β) (l : List α)
    (init : List β) :
    l.foldl (fun acc x => acc ++ block x) init = init ++ l.flatMap block := by
  induction l generalizing init with
  | nil => simp
  | cons a l ih => simp [ih]

/-- Running through rope `r = 0, ..., R - 1` and capsule `i = 0, ..., N - 1` visits
the indices `r * N + i` in increasing order, `0, ..., R * N - 1`. -/
theorem flatMap_range_mul {β : Type} (g : Nat → β) (N R : Nat) :
    (List.range R).flatMap (fun r => (List.range N).map (fun i => g (r * N + i)))
      = (List.range (R * N)).map g := by
  induction R with
  | zero => simp
  | succ R ih =>
    rw [List.range_succ, List.flatMap_append, ih, Nat.succ_mul, List.range_add]
    simp [Function.comp_def]

/-- The nested loops that push `g (r * N + i)` produce `g 0, ..., g (R * N - 1)`. -/
theorem nested_push_eq_map {β : Type} (g : Nat → β) (N R : Nat) (init : List β) :
    (List.range R).foldl
        (fun acc r => (List.range N).foldl (fun acc i => acc ++ [g (r * N + i)]) acc) init
      = init ++ (List.range (R * N)).map g := by
  have h : (fun (acc : List β) r =>
      (List.range N).foldl (fun acc i => acc ++ [g (r * N + i)]) acc)
      = fun acc r => acc ++ (List.range N).map (fun i => g (r * N + i)) := by
    funext acc r
    exact foldl_push_eq_map (fun i => g (r * N + i)) (List.range N) acc
  rw [h, foldl_append_eq_flatMap, flatMap_range_mul]

/-! ## `createJoints` in closed form -/

/-- The joints of one rope, as the loop body of `createJoints` pushes them. -/
theorem rope_block_eq (c : Constants) (t : Transforms) (r : Nat)
    (hN : 1 ≤ c.NB_CAPSULES_PER_ROPE) :
    (List.range (c.NB_CAPSULES_PER_ROPE - 1)).map (capsuleJoint c t r) ++ [boxJoint c t r]
      = (List.range c.NB_CAPSULES_PER_ROPE).map (fun i =>
          if i + 1 < c.NB_CAPSULES_PER_ROPE then capsuleJoint c t r i else boxJoint c t r) := by
  obtain ⟨n, hn⟩ : ∃ n, c.NB_CAPSULES_PER_ROPE = n + 1 := ⟨c.NB_CAPSULES_PER_ROPE - 1, by omega⟩
  rw [hn, Nat.add_sub_cancel, List.range_succ, List.map_append]
  congr 1
  · apply List.map_congr_left
    intro i hi
    have : i < n := List.mem_range.1 hi
    simp [this]
  · simp

/-- The `k`-th joint pushed by `createJoints` has `mCapsules[k]` as first body; its
second body is the next capsule, or the box of the rope when `mCapsules[k]` is the
last capsule of its rope. -/
theorem createJoints_eq_map (c : Constants) (t : Transforms)
    (hN : 1 ≤ c.NB_CAPSULES_PER_ROPE) :
    createJoints c t = (List.range (c.NB_ROPES * c.NB_CAPSULES_PER_ROPE)).map (fun k =>
      if k % c.NB_CAPSULES_PER_ROPE + 1 < c.NB_CAPSULES_PER_ROPE then
        capsuleJoint c t (k / c.NB_CAPSULES_PER_ROPE) (k % c.NB_CAPSULES_PER_ROPE)
      else boxJoint c t (k / c.NB_CAPSULES_PER_ROPE)) := by
  have hstep : (fun (joints : List BallAndSocketJointInfo) r =>
      let joints := (List.range (c.NB_CAPSULES_PER_ROPE - 1)).foldl
        (fun joints i => joints ++ [capsuleJoint c t r i]) joints
      joints ++ [boxJoint c t r])
      = fun joints r => joints ++ (List.range c.NB_CAPSULES_PER_ROPE).map (fun i =>
          (fun k => if k % c.NB_CAPSULES_PER_ROPE + 1 < c.NB_CAPSULES_PER_ROPE then
              capsuleJoint c t (k / c.NB_CAPSULES_PER_ROPE) (k % c.NB_CAPSULES_PER_ROPE)
            else boxJoint c t (k / c.NB_CAPSULES_PER_ROPE))
            (r * c.NB_CAPSULES_PER_ROPE + i)) := by
    funext joints r
    show (List.range (c.NB_CAPSULES_PER_ROPE - 1)).foldl
        (fun joints i => joints ++ [capsuleJoint c t r i]) joints ++ [boxJoint c t r] = _
    rw [foldl_push_eq_map, List.append_assoc, rope_block_eq c t r hN]
    congr 1
    apply List.map_congr_left
    intro i hi
    have hi' : i < c.NB_CAPSULES_PER_ROPE := List.mem_range.1 hi
    have hdiv : (r * c.NB_CAPSULES_PER_ROPE + i) / c.NB_CAPSULES_PER_ROPE = r := by
      rw [Nat.mul_comm, Nat.mul_add_div (by omega), Nat.div_eq_of_lt hi', Nat.add_zero]
    have hmod : (r * c.NB_CAPSULES_PER_ROPE + i) % c.NB_CAPSULES_PER_ROPE = i := by
      rw [Nat.mul_comm, Nat.mul_add_mod, Nat.mod_eq_of_lt hi']
    simp only [hdiv, hmod]
  unfold createJoints createJointsFrom
  rw [hstep, foldl_append_eq_flatMap, List.nil_append]
  exact flatMap_range_mul (fun k =>
    if k % c.NB_CAPSULES_PER_ROPE + 1 < c.NB_CAPSULES_PER_ROPE then
      capsuleJoint c t (k / c.NB_CAPSULES_PER_ROPE) (k % c.NB_CAPSULES_PER_ROPE)
    else boxJoint c t (k / c.NB_CAPSULES_PER_ROPE)) c.NB_CAPSULES_PER_ROPE c.NB_ROPES

theorem countP_range_eq_one (n k0 : Nat) (h : k0 < n) (p : Nat → Bool)
    (hp : ∀ k, k < n → (p k = true ↔ k = k0)) : (List.range n).countP p = 1 := by
  have h1 : (List.range n).countP p = (List.range n).countP (fun k => k == k0) := by
    apply List.countP_congr
    intro k hk
    simpa using hp k (List.mem_range.1 hk)
  rw [h1, ← List.count_eq_countP]
  exact List.count_eq_one_of_mem (List.nodup_range n) (List.mem_range.2 h)

theorem capsuleIndex_div_mod (c : Constants) (k : Nat) :
    capsuleIndex c (k / c.NB_CAPSULES_PER_ROPE) (k % c.NB_CAPSULES_PER_ROPE) = k := by
  unfold capsuleIndex
  exact Nat.div_add_mod' k c.NB_CAPSULES_PER_ROPE

theorem capsuleIndex_div (c : Constants) (r i : Nat) (hi : i < c.NB_CAPSULES_PER_ROPE) :
    capsuleIndex c r i / c.NB_CAPSULES_PER_ROPE = r := by
  unfold capsuleIndex
  rw [Nat.mul_comm, Nat.mul_add_div (by omega), Nat.div_eq_of_lt hi, Nat.add_zero]

theorem capsuleIndex_mod (c : Constants) (r i : Nat) (hi : i < c.NB_CAPSULES_PER_ROPE) :
    capsuleIndex c r i % c.NB_CAPSULES_PER_ROPE = i := by
  unfold capsuleIndex
  rw [Nat.mul_comm, Nat.mul_add_mod, Nat.mod_eq_of_lt hi]

theorem capsuleIndex_lt (c : Constants) (r i : Nat) (hr : r < c.NB_ROPES)
    (hi : i < c.NB_CAPSULES_PER_ROPE) :
    capsuleIndex c r i < c.NB_ROPES * c.NB_CAPSULES_PER_ROPE := by
  unfold capsuleIndex
  calc r * c.NB_CAPSULES_PER_ROPE + i
      < r * c.NB_CAPSULES_PER_ROPE + c.NB_CAPSULES_PER_ROPE := by omega
    _ = (r + 1) * c.NB_CAPSULES_PER_ROPE := by rw [Nat.succ_mul]
    _ ≤ c.NB_ROPES * c.NB_CAPSULES_PER_ROPE := Nat.mul_le_mul_right _ hr

/-- The joint `createJoints` pushes in position `k`. -/
theorem getElem?_createJoints (c : Constants) (t : Transforms)
    (hN : 1 ≤ c.NB_CAPSULES_PER_ROPE) (k : Nat)
    (hk : k < c.NB_ROPES * c.NB_CAPSULES_PER_ROPE) :
    (createJoints c t)[k]? = some
      (if k % c.NB_CAPSULES_PER_ROPE + 1 < c.NB_CAPSULES_PER_ROPE then
        capsuleJoint c t (k / c.NB_CAPSULES_PER_ROPE) (k % c.NB_CAPSULES_PER_ROPE)
      else boxJoint c t (k / c.NB_CAPSULES_PER_ROPE)) := by
  rw [createJoints_eq_map c t hN, List.getElem?_map, List.getElem?_range hk]
  rfl

/-- First body of the joint in position `k`. -/
theorem jointAt_body1 (c : Constants) (t : Transforms) (k : Nat)
    (hN : 1 ≤ c.NB_CAPSULES_PER_ROPE) :
    (if k % c.NB_CAPSULES_PER_ROPE + 1 < c.NB_CAPSULES_PER_ROPE then
        capsuleJoint c t (k / c.NB_CAPSULES_PER_ROPE) (k % c.NB_CAPSULES_PER_ROPE)
      else boxJoint c t (k / c.NB_CAPSULES_PER_ROPE)).body1 = Body.capsule k := by
  have hdm := Nat.div_add_mod' k c.NB_CAPSULES_PER_ROPE
  have hlt := Nat.mod_lt k (show c.NB_CAPSULES_PER_ROPE > 0 by omega)
  split
  · simp only [capsuleJoint, BallAndSocketJointInfo.create, capsuleIndex, hdm]
  · simp only [boxJoint, BallAndSocketJointInfo.create]
    congr 1
    omega

/-- Second body of the joint in position `k`. -/
theorem jointAt_body2 (c : Constants) (t : Transforms) (k : Nat) :
    (if k % c.NB_CAPSULES_PER_ROPE + 1 < c.NB_CAPSULES_PER_ROPE then
        capsuleJoint c t (k / c.NB_CAPSULES_PER_ROPE) (k % c.NB_CAPSULES_PER_ROPE)
      else boxJoint c t (k / c.NB_CAPSULES_PER_ROPE)).body2
      = if k % c.NB_CAPSULES_PER_ROPE + 1 < c.NB_CAPSULES_PER_ROPE then Body.capsule (k + 1)
        else if k / c.NB_CAPSULES_PER_ROPE > 0 then Body.box2 else Body.box1 := by
  have hdm := Nat.div_add_mod' k c.NB_CAPSULES_PER_ROPE
  split
  · simp only [capsuleJoint, BallAndSocketJointInfo.create, capsuleIndex, hdm]
  · simp only [boxJoint, BallAndSocketJointInfo.create]

/-- Every joint of `createJoints` is the joint of some position `k`, with the
bodies given above and collision disabled. -/
theorem mem_createJoints (c : Constants) (t : Transforms)
    (hN : 1 ≤ c.NB_CAPSULES_PER_ROPE) (j : BallAndSocketJointInfo)
    (hj : j ∈ createJoints c t) :
    ∃ k, k < c.NB_ROPES * c.NB_CAPSULES_PER_ROPE ∧ j.body1 = Body.capsule k ∧
      j.body2 = (if k % c.NB_CAPSULES_PER_ROPE + 1 < c.NB_CAPSULES_PER_ROPE then
          Body.capsule (k + 1)
        else if k / c.NB_CAPSULES_PER_ROPE > 0 then Body.box2 else Body.box1) ∧
      j.isCollisionEnabled = false := by
  rw [createJoints_eq_map c t hN, List.mem_map] at hj
  obtain ⟨k, hk, rfl⟩ := hj
  refine ⟨k, List.mem_range.1 hk, jointAt_body1 c t k hN, jointAt_body2 c t k, ?_⟩
  split <;> rfl

/-- The number of joints that link `a` and `b` is one as soon as position `k0` is
the only one whose joint links them. -/
theorem countP_links_createJoints (c : Constants) (t : Transforms)
    (hN : 1 ≤ c.NB_CAPSULES_PER_ROPE) (p : BallAndSocketJointInfo → Bool) (k0 : Nat)
    (hk0 : k0 < c.NB_ROPES * c.NB_CAPSULES_PER_ROPE)
    (hp : ∀ k, k < c.NB_ROPES * c.NB_CAPSULES_PER_ROPE →
      (p (if k % c.NB_CAPSULES_PER_ROPE + 1 < c.NB_CAPSULES_PER_ROPE then
          capsuleJoint c t (k / c.NB_CAPSULES_PER_ROPE) (k % c.NB_CAPSULES_PER_ROPE)
        else boxJoint c t (k / c.NB_CAPSULES_PER_ROPE)) = true ↔ k = k0)) :
    (createJoints c t).countP p = 1 := by
  rw [createJoints_eq_map c t hN, List.countP_map]
  exact countP_range_eq_one _ k0 hk0 _ hp

theorem links_iff (j : BallAndSocketJointInfo) (a b : Body) :
    links j a b = true ↔ (j.body1 = a ∧ j.body2 = b) ∨ (j.body1 = b ∧ j.body2 = a) := by
  simp [links]

theorem succ_div_of_mod_lt (N k : Nat) (h : k % N + 1 < N) : (k + 1) / N = k / N := by
  have hN : 0 < N := by omega
  have hk : k + 1 = N * (k / N) + (k % N + 1) := by
    have := Nat.div_add_mod k N
    omega
  rw [hk, Nat.mul_add_div hN, Nat.div_eq_of_lt h, Nat.add_zero]

/-- Claim C6. For every `NB_ROPES` and every `NB_CAPSULES_PER_ROPE ≥ 1`,
`createJoints` makes each rope a simple chain: it creates
`NB_ROPES * NB_CAPSULES_PER_ROPE` joints; for each rope `r` and each
`i < NB_CAPSULES_PER_ROPE - 1` exactly one joint links capsule `i` to capsule
`i + 1` of rope `r`; exactly one joint links the last capsule of rope `r` to a
box, and that box is box 1 when `r = 0` and box 2 otherwise; and no joint links
capsules of two different ropes. -/
theorem createJoints_simple_chain (c : Constants) (t : Transforms)
    (hN : 1 ≤ c.NB_CAPSULES_PER_ROPE) :
    (createJoints c t).length = c.NB_ROPES * c.NB_CAPSULES_PER_ROPE ∧
    (∀ r i, r < c.NB_ROPES → i + 1 < c.NB_CAPSULES_PER_ROPE →
      (createJoints c t).countP (fun j =>
        links j (Body.capsule (capsuleIndex c r i))
          (Body.capsule (capsuleIndex c r (i + 1)))) = 1) ∧
    (∀ r, r < c.NB_ROPES →
      (createJoints c t).countP (fun j =>
        links j (Body.capsule (capsuleIndex c r (c.NB_CAPSULES_PER_ROPE - 1))) Body.box1 ||
        links j (Body.capsule (capsuleIndex c r (c.NB_CAPSULES_PER_ROPE - 1))) Body.box2) = 1 ∧
      (createJoints c t).countP (fun j =>
        links j (Body.capsule (capsuleIndex c r (c.NB_CAPSULES_PER_ROPE - 1)))
          (if r = 0 then Body.box1 else Body.box2)) = 1) ∧
    (∀ j ∈ createJoints c t, ∀ a b, j.body1 = Body.capsule a → j.body2 = Body.capsule b →
      a / c.NB_CAPSULES_PER_ROPE = b / c.NB_CAPSULES_PER_ROPE) := by
  refine ⟨?_, ?_, ?_, ?_⟩
  · rw [createJoints_eq_map c t hN]
    simp
  · intro r i hr hi
    have hi' : i < c.NB_CAPSULES_PER_ROPE := by omega
    apply countP_links_createJoints c t hN _ (capsuleIndex c r i) (capsuleIndex_lt c r i hr hi')
    intro k _
    rw [links_iff, jointAt_body1 c t k hN, jointAt_body2 c t k]
    constructor
    · rintro (⟨h1, _⟩ | ⟨h1, h2⟩)
      · exact Body.capsule.inj h1
      · have hk : k = capsuleIndex c r i + 1 := Body.capsule.inj h1
        split at h2
        · have := Body.capsule.inj h2
          omega
        · split at h2 <;> cases h2
    · rintro rfl
      left
      refine ⟨rfl, ?_⟩
      rw [capsuleIndex_mod c r i hi', if_pos hi]
      rfl
  · intro r hr
    have hlast : c.NB_CAPSULES_PER_ROPE - 1 < c.NB_CAPSULES_PER_ROPE := by omega
    have hmod := capsuleIndex_mod c r _ hlast
    have hdiv := capsuleIndex_div c r _ hlast
    have hnot : ¬ (c.NB_CAPSULES_PER_ROPE - 1 + 1 < c.NB_CAPSULES_PER_ROPE) := by omega
    constructor
    · apply countP_links_createJoints c t hN _ _ (capsuleIndex_lt c r _ hr hlast)
      intro k _
      rw [Bool.or_eq_true, links_iff, links_iff, jointAt_body1 c t k hN, jointAt_body2 c t k]
      constructor
      · rintro ((⟨h1, _⟩ | ⟨h1, _⟩) | (⟨h1, _⟩ | ⟨h1, _⟩))
        · exact Body.capsule.inj h1
        · cases h1
        · exact Body.capsule.inj h1
        · cases h1
      · rintro rfl
        rw [hmod, if_neg hnot, hdiv]
        by_cases h0 : r > 0
        · right; left
          exact ⟨rfl, by rw [if_pos h0]⟩
        · left; left
          exact ⟨rfl, by rw [if_neg h0]⟩
    · apply countP_links_createJoints c t hN _ _ (capsuleIndex_lt c r _ hr hlast)
      intro k _
      rw [links_iff, jointAt_body1 c t k hN, jointAt_body2 c t k]
      constructor
      · rintro (⟨h1, _⟩ | ⟨h1, _⟩)
        · exact Body.capsule.inj h1
        · split at h1 <;> cases h1
      · rintro rfl
        left
        refine ⟨rfl, ?_⟩
        rw [hmod, if_neg hnot, hdiv]
        by_cases h0 : r = 0
        · rw [if_neg (by omega), if_pos h0]
        · rw [if_pos (by omega), if_neg h0]
  · intro j hj a b ha hb
    obtain ⟨k, _, h1, h2, _⟩ := mem_createJoints c t hN j hj
    rw [ha] at h1
    rw [hb] at h2
    have hak : a = k := Body.capsule.inj h1
    split at h2
    · rename_i hlt
      have hbk : b = k + 1 := Body.capsule.inj h2
      rw [hak, hbk, succ_div_of_mod_lt _ _ hlt]
    · split at h2 <;> cases h2

/-! ## `initializeBodiesPositions` in closed form -/

@[simp] theorem Vector3.add_x (a b : Vector3) : (a + b).x = a.x + b.x := rfl

@[simp] theorem Vector3.add_y (a b : Vector3) : (a + b).y = a.y + b.y := rfl

@[simp] theorem Vector3.add_z (a b : Vector3) : (a + b).z = a.z + b.z := rfl

@[simp] theorem Vector3.mul_x (a : Vector3) (q : ℚ) : (a * q).x = a.x * q := rfl

@[simp] theorem Vector3.mul_y (a : Vector3) (q : ℚ) : (a * q).y = a.y * q := rfl

@[simp] theorem Vector3.mul_z (a : Vector3) (q : ℚ) : (a * q).z = a.z * q := rfl

@[simp] theorem Vector3.smul_x (q : ℚ) (a : Vector3) : (q * a).x = q * a.x := rfl

@[simp] theorem Vector3.smul_y (q : ℚ) (a : Vector3) : (q * a).y = q * a.y := rfl

@[simp] theorem Vector3.smul_z (q : ℚ) (a : Vector3) : (q * a).z = q * a.z := rfl

theorem setTransform_same (t : Transforms) (b : Body) (tr : Transform) :
    setTransform t b tr b = tr := by
  simp [setTransform]

theorem setTransform_other (t : Transforms) (b b' : Body) (tr : Transform) (h : b' ≠ b) :
    setTransform t b tr b' = t b' := by
  simp [setTransform, h]

/-- The loop over the capsules of rope `r`, after `n` iterations: `initPosition`
went down `n` times, capsules `0, ..., n - 1` of the rope are placed, the other
bodies are untouched. -/
theorem initCapsule_loop (c : Constants) (r : Nat) (p0 : Vector3) (t : Transforms) (n : Nat) :
    ((List.range n).foldl (initCapsuleStep c r) (p0, t)).1
        = ⟨p0.x, p0.y - (n : ℚ) * c.CAPSULE_HEIGHT, p0.z⟩ ∧
    ∀ b, ((List.range n).foldl (initCapsuleStep c r) (p0, t)).2 b =
      match b with
      | Body.capsule k =>
          if r * c.NB_CAPSULES_PER_ROPE ≤ k ∧ k < r * c.NB_CAPSULES_PER_ROPE + n then
            ⟨⟨p0.x, p0.y - ((k - r * c.NB_CAPSULES_PER_ROPE + 1 : ℕ) : ℚ) * c.CAPSULE_HEIGHT,
              p0.z⟩, Quaternion.identity⟩
          else t (Body.capsule k)
      | b => t b := by
  induction n with
  | zero =>
    refine ⟨by simp, ?_⟩
    intro b
    cases b with
    | capsule k =>
      simp only [List.range_zero, List.foldl_nil]
      rw [if_neg (by omega)]
    | box1 => rfl
    | box2 => rfl
    | plank => rfl
  | succ n ih =>
    obtain ⟨ih1, ih2⟩ := ih
    rw [List.range_succ, List.foldl_append]
    simp only [List.foldl_cons, List.foldl_nil]
    have hpos : (((List.range n).foldl (initCapsuleStep c r) (p0, t)).1
        + Vector3.mk 0 (-c.CAPSULE_HEIGHT) 0)
        = ⟨p0.x, p0.y - ((n + 1 : ℕ) : ℚ) * c.CAPSULE_HEIGHT, p0.z⟩ := by
      rw [ih1]
      ext <;> simp
      ring
    refine ⟨hpos, ?_⟩
    intro b
    show setTransform _ _ _ b = _
    rw [hpos]
    cases b with
    | capsule k =>
      by_cases hk : k = capsuleIndex c r n
      · subst hk
        rw [setTransform_same]
        have h1 : r * c.NB_CAPSULES_PER_ROPE ≤ capsuleIndex c r n ∧
            capsuleIndex c r n < r * c.NB_CAPSULES_PER_ROPE + (n + 1) := by
          unfold capsuleIndex; omega
        have h2 : capsuleIndex c r n - r * c.NB_CAPSULES_PER_ROPE + 1 = n + 1 := by
          unfold capsuleIndex; omega
        simp only [h1, and_self, if_true, h2]
      · rw [setTransform_other _ _ _ _ (by intro h; exact hk (Body.capsule.inj h)), ih2]
        have hk' : k ≠ r * c.NB_CAPSULES_PER_ROPE + n := hk
        by_cases hin : r * c.NB_CAPSULES_PER_ROPE ≤ k ∧ k < r * c.NB_CAPSULES_PER_ROPE + n
        · have hin' : r * c.NB_CAPSULES_PER_ROPE ≤ k ∧
              k < r * c.NB_CAPSULES_PER_ROPE + (n + 1) := by omega
          simp only [hin, hin', and_self, if_true]
        · have hin' : ¬ (r * c.NB_CAPSULES_PER_ROPE ≤ k ∧
              k < r * c.NB_CAPSULES_PER_ROPE + (n + 1)) := by omega
          simp only [hin, hin', if_false]
    | box1 => rw [setTransform_other _ _ _ _ (by simp), ih2]
    | box2 => rw [setTransform_other _ _ _ _ (by simp), ih2]
    | plank => rw [setTransform_other _ _ _ _ (by simp), ih2]

/-- The loop over the ropes, after `R` iterations: the capsules of ropes
`0, ..., R - 1` are placed, the other bodies are untouched. -/
theorem initRope_loop (c : Constants) (t : Transforms) (R : Nat) (b : Body) :
    (List.range R).foldl (initRopeStep c) t b =
      match b with
      | Body.capsule k =>
          if k < R * c.NB_CAPSULES_PER_ROPE then
            ⟨⟨(ropeInitPosition c (k / c.NB_CAPSULES_PER_ROPE)).x,
              (ropeInitPosition c (k / c.NB_CAPSULES_PER_ROPE)).y
                - ((k % c.NB_CAPSULES_PER_ROPE + 1 : ℕ) : ℚ) * c.CAPSULE_HEIGHT,
              (ropeInitPosition c (k / c.NB_CAPSULES_PER_ROPE)).z⟩, Quaternion.identity⟩
          else t (Body.capsule k)
      | b => t b := by
  induction R generalizing b with
  | zero =>
    cases b with
    | capsule k =>
      simp only [List.range_zero, List.foldl_nil]
      rw [if_neg (by omega)]
    | box1 => rfl
    | box2 => rfl
    | plank => rfl
  | succ R ih =>
    rw [List.range_succ, List.foldl_append]
    simp only [List.foldl_cons, List.foldl_nil]
    have key := (initCapsule_loop c R (ropeInitPosition c R)
      ((List.range R).foldl (initRopeStep c) t) c.NB_CAPSULES_PER_ROPE).2 b
    show ((List.range c.NB_CAPSULES_PER_ROPE).foldl (initCapsuleStep c R)
      (ropeInitPosition c R, (List.range R).foldl (initRopeStep c) t)).2 b = _
    rw [key]
    cases b with
    | capsule k =>
      simp only
      by_cases hin : R * c.NB_CAPSULES_PER_ROPE ≤ k ∧
          k < R * c.NB_CAPSULES_PER_ROPE + c.NB_CAPSULES_PER_ROPE
      · have hlt : k < (R + 1) * c.NB_CAPSULES_PER_ROPE := by rw [Nat.succ_mul]; omega
        have hk : k = capsuleIndex c R (k - R * c.NB_CAPSULES_PER_ROPE) := by
          unfold capsuleIndex; omega
        have hi : k - R * c.NB_CAPSULES_PER_ROPE < c.NB_CAPSULES_PER_ROPE := by omega
        have hdiv : k / c.NB_CAPSULES_PER_ROPE = R := by
          rw [hk]; exact capsuleIndex_div c R _ hi
        have hmod : k % c.NB_CAPSULES_PER_ROPE = k - R * c.NB_CAPSULES_PER_ROPE := by
          conv_lhs => rw [hk]
          exact capsuleIndex_mod c R _ hi
        simp only [hin, hlt, and_self, if_true, hdiv, hmod]
      · rw [if_neg hin, ih]
        simp only
        by_cases hlt : k < R * c.NB_CAPSULES_PER_ROPE
        · have hlt' : k < (R + 1) * c.NB_CAPSULES_PER_ROPE := by rw [Nat.succ_mul]; omega
          simp only [hlt, hlt', if_true]
        · have hlt' : ¬ k < (R + 1) * c.NB_CAPSULES_PER_ROPE := by rw [Nat.succ_mul]; omega
          simp only [hlt, hlt', if_false]
    | box1 => exact ih Body.box1
    | box2 => exact ih Body.box2
    | plank => exact ih Body.plank

theorem ropeInitPosition_y (c : Constants) (r : Nat) : (ropeInitPosition c r).y = 15 := by
  rcases r with _ | _ | _ | _ | _ | r <;> simp [ropeInitPosition]

theorem ropeInitPosition_zero (c : Constants) : ropeInitPosition c 0 = ⟨-5, 15, 0⟩ := by
  simp [ropeInitPosition]

/-- Transform of capsule `i` of rope `r` after `initializeBodiesPositions`. -/
theorem initializeBodiesPositions_capsule (c : Constants) (t : Transforms) (r i : Nat)
    (hr : r < c.NB_ROPES) (hi : i < c.NB_CAPSULES_PER_ROPE) :
    initializeBodiesPositions c t (Body.capsule (capsuleIndex c r i)) =
      ⟨⟨(ropeInitPosition c r).x, 15 - ((i : ℚ) + 1) * c.CAPSULE_HEIGHT,
        (ropeInitPosition c r).z⟩, Quaternion.identity⟩ := by
  unfold initializeBodiesPositions
  rw [setTransform_other _ _ _ _ (by simp), setTransform_other _ _ _ _ (by simp),
    setTransform_other _ _ _ _ (by simp), initRope_loop]
  simp only
  rw [if_pos (capsuleIndex_lt c r i hr hi), capsuleIndex_div c r i hi, capsuleIndex_mod c r i hi,
    ropeInitPosition_y]
  push_cast
  rfl

/-- Claim C8. After `initializeBodiesPositions`, in exact arithmetic, capsule `i` of
rope `r` sits at height `15 - (i + 1) * CAPSULE_HEIGHT` with the `x` and `z` of
its rope. Hence capsule `i + 1` is capsule `i` moved by `CAPSULE_HEIGHT` along
`y` only, and the anchor `createJoints` computes for the two, the midpoint of
their positions, is `CAPSULE_HEIGHT / 2` below capsule `i` and
`CAPSULE_HEIGHT / 2` above capsule `i + 1`, at distance `CAPSULE_HEIGHT / 2` from
both centres. -/
theorem initializeBodiesPositions_rest_pose (c : Constants) (t : Transforms) (r i : Nat)
    (hr : r < c.NB_ROPES) (hi : i < c.NB_CAPSULES_PER_ROPE) :
    (initializeBodiesPositions c t (Body.capsule (capsuleIndex c r i))).position
        = ⟨(ropeInitPosition c r).x, 15 - ((i : ℚ) + 1) * c.CAPSULE_HEIGHT,
            (ropeInitPosition c r).z⟩ ∧
    (i + 1 < c.NB_CAPSULES_PER_ROPE →
      (initializeBodiesPositions c t (Body.capsule (capsuleIndex c r (i + 1)))).position
        = (initializeBodiesPositions c t (Body.capsule (capsuleIndex c r i))).position
            + ⟨0, -c.CAPSULE_HEIGHT, 0⟩ ∧
      ∃ j, (createJoints c (initializeBodiesPositions c t))[capsuleIndex c r i]? = some j ∧
        j.body1 = Body.capsule (capsuleIndex c r i) ∧
        j.body2 = Body.capsule (capsuleIndex c r (i + 1)) ∧
        j.anchorPointWorldSpace
          = (initializeBodiesPositions c t (Body.capsule (capsuleIndex c r i))).position
              + ⟨0, -(c.CAPSULE_HEIGHT / 2), 0⟩ ∧
        (initializeBodiesPositions c t (Body.capsule (capsuleIndex c r (i + 1)))).position
          = j.anchorPointWorldSpace + ⟨0, -(c.CAPSULE_HEIGHT / 2), 0⟩ ∧
        distSq j.anchorPointWorldSpace
          (initializeBodiesPositions c t (Body.capsule (capsuleIndex c r i))).position
            = (c.CAPSULE_HEIGHT / 2) ^ 2 ∧
        distSq j.anchorPointWorldSpace
          (initializeBodiesPositions c t (Body.capsule (capsuleIndex c r (i + 1)))).position
            = (c.CAPSULE_HEIGHT / 2) ^ 2) := by
  have h1 := initializeBodiesPositions_capsule c t r i hr hi
  refine ⟨by rw [h1], ?_⟩
  intro hi'
  have h2 := initializeBodiesPositions_capsule c t r (i + 1) hr hi'
  have hN : 1 ≤ c.NB_CAPSULES_PER_ROPE := by omega
  have hj := getElem?_createJoints c (initializeBodiesPositions c t) hN (capsuleIndex c r i)
    (capsuleIndex_lt c r i hr hi)
  rw [capsuleIndex_mod c r i hi, capsuleIndex_div c r i hi, if_pos hi'] at hj
  have h2' : initializeBodiesPositions c t (Body.capsule (capsuleIndex c r i + 1)) = _ := h2
  refine ⟨?_, _, hj, rfl, rfl, ?_, ?_, ?_, ?_⟩
  · rw [h1, h2]
    ext <;> simp
    ring
  · simp only [capsuleJoint, BallAndSocketJointInfo.create, h1, h2']
    ext <;> simp <;> ring
  · simp only [capsuleJoint, BallAndSocketJointInfo.create, h1, h2, h2']
    ext <;> simp <;> ring
  · simp only [capsuleJoint, BallAndSocketJointInfo.create, h1, h2', distSq]
    simp
    ring
  · simp only [capsuleJoint, BallAndSocketJointInfo.create, h1, h2, h2', distSq]
    simp
    ring

/-! ## Collision between jointed bodies -/

/-- The joints of `createJoints`, whatever the constants: rope after rope, the
capsule-to-capsule joints followed by the capsule-to-box joint. -/
theorem createJoints_eq_flatMap (c : Constants) (t : Transforms) :
    createJoints c t = (List.range c.NB_ROPES).flatMap (fun r =>
      (List.range (c.NB_CAPSULES_PER_ROPE - 1)).map (capsuleJoint c t r) ++ [boxJoint c t r]) := by
  have hstep : (fun (joints : List BallAndSocketJointInfo) r =>
      let joints := (List.range (c.NB_CAPSULES_PER_ROPE - 1)).foldl
        (fun joints i => joints ++ [capsuleJoint c t r i]) joints
      joints ++ [boxJoint c t r])
      = fun joints r => joints ++
          ((List.range (c.NB_CAPSULES_PER_ROPE - 1)).map (capsuleJoint c t r)
            ++ [boxJoint c t r]) := by
    funext joints r
    show (List.range (c.NB_CAPSULES_PER_ROPE - 1)).foldl
        (fun joints i => joints ++ [capsuleJoint c t r i]) joints ++ [boxJoint c t r] = _
    rw [foldl_push_eq_map, List.append_assoc]
  unfold createJoints createJointsFrom
  rw [hstep, foldl_append_eq_flatMap, List.nil_append]

/-- Claim C9. Every joint created by `createJoints`, capsule-to-capsule and
capsule-to-box alike, is created with collision between its two bodies
disabled, so the two bodies of every joint are a disabled pair for the broad
phase. -/
theorem createJoints_collision_disabled (c : Constants) (t : Transforms) :
    ∀ j ∈ createJoints c t,
      j.isCollisionEnabled = false ∧
      isPairDisabled (createJoints c t) j.body1 j.body2 = true := by
  intro j hj
  have hflag : j.isCollisionEnabled = false := by
    rw [createJoints_eq_flatMap, List.mem_flatMap] at hj
    obtain ⟨r, _, hjr⟩ := hj
    rw [List.mem_append, List.mem_map, List.mem_singleton] at hjr
    rcases hjr with ⟨i, _, rfl⟩ | rfl
    · rfl
    · rfl
  refine ⟨hflag, ?_⟩
  unfold isPairDisabled
  rw [List.any_eq_true]
  refine ⟨j, hj, ?_⟩
  simp [links, hflag]

/-! ## The joint graph -/

/-- The joint in position `k` is a joint of the scene, with its two bodies. -/
theorem exists_joint_at (c : Constants) (t : Transforms) (hN : 1 ≤ c.NB_CAPSULES_PER_ROPE)
    (k : Nat) (hk : k < c.NB_ROPES * c.NB_CAPSULES_PER_ROPE) :
    ∃ j ∈ createJoints c t, j.body1 = Body.capsule k ∧
      j.body2 = (if k % c.NB_CAPSULES_PER_ROPE + 1 < c.NB_CAPSULES_PER_ROPE then
          Body.capsule (k + 1)
        else if k / c.NB_CAPSULES_PER_ROPE > 0 then Body.box2 else Body.box1) := by
  refine ⟨_, ?_, jointAt_body1 c t k hN, jointAt_body2 c t k⟩
  rw [createJoints_eq_map c t hN, List.mem_map]
  exact ⟨k, List.mem_range.2 hk, rfl⟩

/-- A joint never leaves the first group: its two bodies are both in it or both
out of it. -/
theorem linked_group1 (c : Constants) (t : Transforms) (hN : 1 ≤ c.NB_CAPSULES_PER_ROPE)
    (a b : Body) (h : Linked (createJoints c t) a b) :
    inGroup1 c a = true ↔ inGroup1 c b = true := by
  obtain ⟨j, hj, hl⟩ := h
  obtain ⟨k, _, h1, h2, _⟩ := mem_createJoints c t hN j hj
  have hpos : 0 < c.NB_CAPSULES_PER_ROPE := by omega
  have key : inGroup1 c j.body1 = true ↔ inGroup1 c j.body2 = true := by
    rw [h1, h2]
    by_cases hk : k < c.NB_CAPSULES_PER_ROPE
    · have hmod : k % c.NB_CAPSULES_PER_ROPE = k := Nat.mod_eq_of_lt hk
      have hdiv : k / c.NB_CAPSULES_PER_ROPE = 0 := Nat.div_eq_of_lt hk
      rw [hmod, hdiv]
      by_cases hk1 : k + 1 < c.NB_CAPSULES_PER_ROPE
      · simp [inGroup1, hk, hk1]
      · simp [inGroup1, hk, hk1]
    · have hdiv : k / c.NB_CAPSULES_PER_ROPE > 0 := Nat.div_pos (by omega) hpos
      by_cases hk1 : k % c.NB_CAPSULES_PER_ROPE + 1 < c.NB_CAPSULES_PER_ROPE
      · have : ¬ k + 1 < c.NB_CAPSULES_PER_ROPE := by omega
        simp [inGroup1, hk, hk1, this]
      · simp [inGroup1, hk, hk1, hdiv]
  rw [links_iff] at hl
  rcases hl with ⟨ha, hb⟩ | ⟨hb, ha⟩
  · rw [← ha, ← hb]; exact key
  · rw [← ha, ← hb]; exact key.symm

theorem connected_group1 (c : Constants) (t : Transforms) (hN : 1 ≤ c.NB_CAPSULES_PER_ROPE)
    (a b : Body) (h : Connected (createJoints c t) a b) :
    inGroup1 c a = true ↔ inGroup1 c b = true := by
  induction h with
  | refl => exact Iff.rfl
  | tail _ hlast ih => exact ih.trans (linked_group1 c t hN _ _ hlast)

theorem group_disjoint (c : Constants) (b : Body) (h1 : inGroup1 c b = true)
    (h2 : inGroup2 c b = true) : False := by
  cases b with
  | capsule k =>
    simp only [inGroup1, inGroup2, decide_eq_true_eq] at h1 h2
    omega
  | box1 => simp [inGroup2] at h2
  | box2 => simp [inGroup1] at h1
  | plank => simp [inGroup1] at h1

/-- Every capsule of a rope is connected to the box of the rope. -/
theorem connected_to_box (c : Constants) (t : Transforms) (r : Nat) (hr : r < c.NB_ROPES)
    (m i : Nat) (hm : i + m + 1 = c.NB_CAPSULES_PER_ROPE) :
    Connected (createJoints c t) (Body.capsule (capsuleIndex c r i))
      (if r > 0 then Body.box2 else Body.box1) := by
  have hN : 1 ≤ c.NB_CAPSULES_PER_ROPE := by omega
  have hi : i < c.NB_CAPSULES_PER_ROPE := by omega
  obtain ⟨j, hj, h1, h2⟩ := exists_joint_at c t hN (capsuleIndex c r i)
    (capsuleIndex_lt c r i hr hi)
  rw [capsuleIndex_mod c r i hi, capsuleIndex_div c r i hi] at h2
  induction m generalizing i j with
  | zero =>
    rw [if_neg (by omega)] at h2
    exact Relation.ReflTransGen.single ⟨j, hj, (links_iff _ _ _).2 (Or.inl ⟨h1, h2⟩)⟩
  | succ m ih =>
    rw [if_pos (by omega)] at h2
    have hi' : i + 1 < c.NB_CAPSULES_PER_ROPE := by omega
    obtain ⟨j', hj', h1', h2'⟩ := exists_joint_at c t hN (capsuleIndex c r (i + 1))
      (capsuleIndex_lt c r (i + 1) hr hi')
    rw [capsuleIndex_mod c r (i + 1) hi', capsuleIndex_div c r (i + 1) hi'] at h2'
    exact Relation.ReflTransGen.head ⟨j, hj, (links_iff _ _ _).2 (Or.inl ⟨h1, h2⟩)⟩
      (ih (i + 1) (by omega) hi' j' hj' h1' h2')

/-- Claim C7. The joints created by `createJoints` split the scene into two
disjoint groups. No joint has one body among the capsules of rope 0 and box 1
and the other among the capsules of the other ropes and box 2, and no path of
joints leads from the first group to the second. Within each group every
capsule, static or dynamic, is connected to the box of its group by a path of
joints. -/
theorem createJoints_two_groups (c : Constants) (t : Transforms)
    (hN : 1 ≤ c.NB_CAPSULES_PER_ROPE) :
    (∀ j ∈ createJoints c t,
      ¬ (inGroup1 c j.body1 = true ∧ inGroup2 c j.body2 = true) ∧
      ¬ (inGroup2 c j.body1 = true ∧ inGroup1 c j.body2 = true)) ∧
    (∀ a b, inGroup1 c a = true → inGroup2 c b = true → ¬ Connected (createJoints c t) a b) ∧
    (∀ i, 0 < c.NB_ROPES → i < c.NB_CAPSULES_PER_ROPE →
      inGroup1 c (Body.capsule (capsuleIndex c 0 i)) = true ∧
      Connected (createJoints c t) (Body.capsule (capsuleIndex c 0 i)) Body.box1) ∧
    (∀ r i, 0 < r → r < c.NB_ROPES → i < c.NB_CAPSULES_PER_ROPE →
      inGroup2 c (Body.capsule (capsuleIndex c r i)) = true ∧
      Connected (createJoints c t) (Body.capsule (capsuleIndex c r i)) Body.box2) := by
  refine ⟨?_, ?_, ?_, ?_⟩
  · intro j hj
    have hl : Linked (createJoints c t) j.body1 j.body2 :=
      ⟨j, hj, (links_iff _ _ _).2 (Or.inl ⟨rfl, rfl⟩)⟩
    have hiff := linked_group1 c t hN _ _ hl
    constructor
    · rintro ⟨h1, h2⟩
      exact group_disjoint c _ (hiff.1 h1) h2
    · rintro ⟨h1, h2⟩
      exact group_disjoint c _ (hiff.2 h2) h1
  · intro a b ha hb hconn
    exact group_disjoint c b ((connected_group1 c t hN a b hconn).1 ha) hb
  · intro i hR hi
    refine ⟨by simp [inGroup1, capsuleIndex, hi], ?_⟩
    have h := connected_to_box c t 0 hR (c.NB_CAPSULES_PER_ROPE - 1 - i) i (by omega)
    rwa [if_neg (by omega)] at h
  · intro r i h0 hr hi
    refine ⟨?_, ?_⟩
    · have hlt := capsuleIndex_lt c r i hr hi
      have hge : c.NB_CAPSULES_PER_ROPE ≤ capsuleIndex c r i := by
        unfold capsuleIndex
        calc c.NB_CAPSULES_PER_ROPE = 1 * c.NB_CAPSULES_PER_ROPE := (Nat.one_mul _).symm
          _ ≤ r * c.NB_CAPSULES_PER_ROPE := Nat.mul_le_mul_right _ h0
          _ ≤ r * c.NB_CAPSULES_PER_ROPE + i := Nat.le_add_right _ _
      simp [inGroup2, hlt, hge]
    · have h := connected_to_box c t r hr (c.NB_CAPSULES_PER_ROPE - 1 - i) i (by omega)
      rwa [if_pos h0] at h

/-! ## The destructor -/

/-- The bodies pushed to `mPhysicsObjects` by the constructor. -/
theorem createdBodies_eq (c : Constants) :
    createdBodies c = (List.range (c.NB_ROPES * c.NB_CAPSULES_PER_ROPE)).map Body.capsule
      ++ [Body.box1, Body.box2, Body.plank] := by
  unfold createdBodies capsuleIndex
  simp only
  rw [nested_push_eq_map Body.capsule]
  simp

/-- The calls the destructor makes, in order. -/
theorem destructor_calls (c : Constants) (s : Scene) :
    (destructor c s).calls = s.calls ++ s.mBallAndSocketJoints.map Call.destroyJoint
      ++ (List.range (c.NB_ROPES * c.NB_CAPSULES_PER_ROPE)).map
          (fun k => Call.destroyRigidBody (Body.capsule k))
      ++ [Call.destroyRigidBody Body.box1, Call.destroyRigidBody Body.box2,
          Call.destroyPhysicsWorld] := by
  unfold destructor capsuleIndex
  simp only
  rw [foldl_push_eq_map, nested_push_eq_map (fun k => Call.destroyRigidBody (Body.capsule k))]
  simp

/-- Claim C3, as the code stands. The plank is one of the rigid bodies the
constructor creates, and the destructor never passes it to `destroyRigidBody`:
after the joints it destroys the capsules `0, ..., NB_ROPES *
NB_CAPSULES_PER_ROPE - 1`, box 1 and box 2, each once, and then the physics
world. -/
theorem destructor_leaves_out_plank (c : Constants) (t0 : Transforms) :
    Body.plank ∈ (construct c t0).mPhysicsObjects ∧
    (destructor c (construct c t0)).calls.count (Call.destroyRigidBody Body.plank) = 0 ∧
    (destructor c (construct c t0)).calls =
      (createJoints c (initializeBodiesPositions c t0)).map Call.destroyJoint
      ++ (List.range (c.NB_ROPES * c.NB_CAPSULES_PER_ROPE)).map
          (fun k => Call.destroyRigidBody (Body.capsule k))
      ++ [Call.destroyRigidBody Body.box1, Call.destroyRigidBody Body.box2,
          Call.destroyPhysicsWorld] := by
  have hcalls : (destructor c (construct c t0)).calls =
      (createJoints c (initializeBodiesPositions c t0)).map Call.destroyJoint
      ++ (List.range (c.NB_ROPES * c.NB_CAPSULES_PER_ROPE)).map
          (fun k => Call.destroyRigidBody (Body.capsule k))
      ++ [Call.destroyRigidBody Body.box1, Call.destroyRigidBody Body.box2,
          Call.destroyPhysicsWorld] := by
    rw [destructor_calls]
    simp [construct]
  refine ⟨?_, ?_, hcalls⟩
  · show Body.plank ∈ createdBodies c
    rw [createdBodies_eq]
    simp
  · rw [hcalls, List.count_eq_zero]
    simp

/-! ## `reset` in closed form -/

/-- The loop of `reset` after `n` iterations: capsules `1, ..., n` of `mCapsules` are laid
out horizontally, nothing else changes. -/
theorem resetCapsule_loop (c : Constants) (s : Scene) (n : Nat) :
    ((List.range' 1 n).foldl (resetCapsuleStep c) s).nbIterations = s.nbIterations ∧
    ((List.range' 1 n).foldl (resetCapsuleStep c) s).nbTorqueIterations
      = s.nbTorqueIterations ∧
    ∀ b, ((List.range' 1 n).foldl (resetCapsuleStep c) s).transform b =
      match b with
      | Body.capsule k =>
          if 1 ≤ k ∧ k ≤ n then
            ⟨⟨-5 - ((k : ℚ) + 1 / 2) * c.CAPSULE_HEIGHT, 15 - c.CAPSULE_HEIGHT, 0⟩,
              resetOrientation⟩
          else s.transform (Body.capsule k)
      | b => s.transform b := by
  induction n with
  | zero =>
    refine ⟨rfl, rfl, ?_⟩
    intro b
    cases b with
    | capsule k =>
      simp only [List.range'_zero, List.foldl_nil]
      rw [if_neg (by omega)]
    | box1 => rfl
    | box2 => rfl
    | plank => rfl
  | succ n ih =>
    obtain ⟨ih1, ih2, ih3⟩ := ih
    rw [List.range'_concat, List.foldl_append]
    simp only [List.foldl_cons, List.foldl_nil]
    refine ⟨ih1, ih2, ?_⟩
    intro b
    show setTransform _ _ _ b = _
    cases b with
    | capsule k =>
      by_cases hk : k = 1 + 1 * n
      · subst hk
        rw [setTransform_same]
        simp only
        rw [if_pos (by omega)]
      · rw [setTransform_other _ _ _ _ (by intro h; exact hk (Body.capsule.inj h)), ih3]
        simp only
        by_cases hin : 1 ≤ k ∧ k ≤ n
        · rw [if_pos hin, if_pos (by omega)]
        · rw [if_neg hin, if_neg (by omega)]
    | box1 => rw [setTransform_other _ _ _ _ (by simp), ih3]
    | box2 => rw [setTransform_other _ _ _ _ (by simp), ih3]
    | plank => rw [setTransform_other _ _ _ _ (by simp), ih3]

/-- Transform of `mCapsules[k]` after `reset`: the horizontal pose for
`1 ≤ k ≤ NB_CAPSULES_PER_ROPE - 2`, and the pose of `initializeBodiesPositions`
for every other capsule. -/
theorem reset_transform_capsule (c : Constants) (base : Transforms → Transforms) (s : Scene)
    (k : Nat) :
    (reset c base s).transform (Body.capsule k) =
      if 1 ≤ k ∧ k ≤ c.NB_CAPSULES_PER_ROPE - 1 - 1 then
        ⟨⟨-5 - ((k : ℚ) + 1 / 2) * c.CAPSULE_HEIGHT, 15 - c.CAPSULE_HEIGHT, 0⟩,
          resetOrientation⟩
      else initializeBodiesPositions c (base s.transform) (Body.capsule k) := by
  unfold reset
  simp only
  rw [setTransform_other _ _ _ _ (by simp), (resetCapsule_loop c _ _).2.2]
  rfl

theorem reset_nbIterations (c : Constants) (base : Transforms → Transforms) (s : Scene) :
    (reset c base s).nbIterations = 0 ∧
    (reset c base s).nbTorqueIterations = s.nbTorqueIterations := by
  unfold reset
  simp only
  rw [(resetCapsule_loop c _ _).1, (resetCapsule_loop c _ _).2.1]
  exact ⟨rfl, rfl⟩

/-- Claim C4, as the code stands. With at least one rope and at least two
capsules per rope, `reset` leaves the last capsule of rope 0, which is not
static, where `initializeBodiesPositions` put it: hanging at
`(-5, 15 - NB_CAPSULES_PER_ROPE * CAPSULE_HEIGHT, 0)` with the identity
orientation, not in the horizontal pose. The capsules `1, ...,
NB_CAPSULES_PER_ROPE - 2` do get the horizontal pose. -/
theorem reset_leaves_last_capsule (c : Constants) (base : Transforms → Transforms)
    (s : Scene) (hR : 1 ≤ c.NB_ROPES) (hN : 2 ≤ c.NB_CAPSULES_PER_ROPE) :
    (reset c base s).transform (Body.capsule (c.NB_CAPSULES_PER_ROPE - 1))
      = ⟨⟨-5, 15 - (c.NB_CAPSULES_PER_ROPE : ℚ) * c.CAPSULE_HEIGHT, 0⟩, Quaternion.identity⟩ ∧
    ((reset c base s).transform (Body.capsule (c.NB_CAPSULES_PER_ROPE - 1))).orientation
      ≠ resetOrientation ∧
    ∀ i, 1 ≤ i → i + 1 < c.NB_CAPSULES_PER_ROPE →
      (reset c base s).transform (Body.capsule i)
        = ⟨⟨-5 - ((i : ℚ) + 1 / 2) * c.CAPSULE_HEIGHT, 15 - c.CAPSULE_HEIGHT, 0⟩,
            resetOrientation⟩ := by
  have hlast : (reset c base s).transform (Body.capsule (c.NB_CAPSULES_PER_ROPE - 1))
      = ⟨⟨-5, 15 - (c.NB_CAPSULES_PER_ROPE : ℚ) * c.CAPSULE_HEIGHT, 0⟩,
          Quaternion.identity⟩ := by
    rw [reset_transform_capsule, if_neg (by omega)]
    have h := initializeBodiesPositions_capsule c (base s.transform) 0
      (c.NB_CAPSULES_PER_ROPE - 1) (by omega) (by omega)
    have hidx : capsuleIndex c 0 (c.NB_CAPSULES_PER_ROPE - 1) = c.NB_CAPSULES_PER_ROPE - 1 := by
      simp [capsuleIndex]
    rw [hidx, ropeInitPosition_zero] at h
    rw [h]
    have hcast : ((c.NB_CAPSULES_PER_ROPE - 1 : ℕ) : ℚ) + 1 = (c.NB_CAPSULES_PER_ROPE : ℚ) := by
      have : c.NB_CAPSULES_PER_ROPE - 1 + 1 = c.NB_CAPSULES_PER_ROPE := by omega
      exact_mod_cast this
    rw [hcast]
  refine ⟨hlast, ?_, ?_⟩
  · rw [hlast]
    simp [resetOrientation]
  · intro i h1 h2
    rw [reset_transform_capsule, if_pos (by omega)]

/-- After construction the centres of capsules `i` and `i + 1` of rope 0 are
`CAPSULE_HEIGHT` apart. -/
theorem construct_rest_distance (c : Constants) (t0 : Transforms) (i : Nat)
    (hR : 0 < c.NB_ROPES) (hi : i + 1 < c.NB_CAPSULES_PER_ROPE) :
    distSq ((construct c t0).transform (Body.capsule i)).position
      ((construct c t0).transform (Body.capsule (i + 1))).position = c.CAPSULE_HEIGHT ^ 2 := by
  have h1 := initializeBodiesPositions_capsule c t0 0 i hR (by omega)
  have h2 := initializeBodiesPositions_capsule c t0 0 (i + 1) hR hi
  have hidx : ∀ m, capsuleIndex c 0 m = m := by intro m; simp [capsuleIndex]
  rw [hidx] at h1 h2
  show distSq (initializeBodiesPositions c t0 (Body.capsule i)).position
    (initializeBodiesPositions c t0 (Body.capsule (i + 1))).position = _
  rw [h1, h2]
  simp [distSq]
  ring

/-- Claim C5, amended. With at least one rope, the pose set by `reset` keeps at
their rest distance the capsules of the first rope that `reset` lays out
horizontally: for every `i` with `1 ≤ i` and `i + 2 < NB_CAPSULES_PER_ROPE`, the
centres of capsules `i` and `i + 1` of rope 0 differ by `CAPSULE_HEIGHT` along
`x` only, hence are exactly `CAPSULE_HEIGHT` apart after `reset`, as the centres
of any two consecutive capsules of rope 0 are after construction. -/
theorem reset_keeps_rest_distance (c : Constants) (base : Transforms → Transforms)
    (t0 : Transforms) (s : Scene) (i : Nat) (hR : 0 < c.NB_ROPES) (h1 : 1 ≤ i)
    (h2 : i + 2 < c.NB_CAPSULES_PER_ROPE) :
    ((reset c base s).transform (Body.capsule (i + 1))).position
      = ((reset c base s).transform (Body.capsule i)).position + ⟨-c.CAPSULE_HEIGHT, 0, 0⟩ ∧
    distSq ((reset c base s).transform (Body.capsule i)).position
      ((reset c base s).transform (Body.capsule (i + 1))).position = c.CAPSULE_HEIGHT ^ 2 ∧
    ∀ i', i' + 1 < c.NB_CAPSULES_PER_ROPE →
      distSq ((construct c t0).transform (Body.capsule i')).position
        ((construct c t0).transform (Body.capsule (i' + 1))).position = c.CAPSULE_HEIGHT ^ 2 := by
  have ha := reset_transform_capsule c base s i
  have hb := reset_transform_capsule c base s (i + 1)
  rw [if_pos (by omega)] at ha hb
  refine ⟨?_, ?_, fun i' hi' => construct_rest_distance c t0 i' hR hi'⟩
  · rw [ha, hb]
    ext <;> simp
    ring
  · rw [ha, hb]
    simp [distSq]
    ring

/-- Claim C5 fails between the static capsule and the first capsule that `reset`
lays out: with twenty capsules of height `1 / 2` per rope, after `reset` the
centres of capsules 0 and 1 of rope 0 are at `(-5, 29 / 2, 0)` and
`(-23 / 4, 29 / 2, 0)`, so `3 / 4` apart and not `1 / 2`. -/
theorem reset_stretches_first_joint :
    0 + 1 < exampleConstants.NB_CAPSULES_PER_ROPE ∧
    ((reset exampleConstants id (construct exampleConstants originTransforms)).transform
      (Body.capsule 0)).position = ⟨-5, 29 / 2, 0⟩ ∧
    ((reset exampleConstants id (construct exampleConstants originTransforms)).transform
      (Body.capsule 1)).position = ⟨-23 / 4, 29 / 2, 0⟩ ∧
    distSq
      ((reset exampleConstants id (construct exampleConstants originTransforms)).transform
        (Body.capsule 0)).position
      ((reset exampleConstants id (construct exampleConstants originTransforms)).transform
        (Body.capsule 1)).position = (3 / 4) ^ 2 ∧
    distSq
      ((reset exampleConstants id (construct exampleConstants originTransforms)).transform
        (Body.capsule 0)).position
      ((reset exampleConstants id (construct exampleConstants originTransforms)).transform
        (Body.capsule 1)).position ≠ exampleConstants.CAPSULE_HEIGHT ^ 2 := by
  have h0 : ((reset exampleConstants id (construct exampleConstants originTransforms)).transform
      (Body.capsule 0)).position = ⟨-5, 29 / 2, 0⟩ := by
    rw [reset_transform_capsule, if_neg (by omega)]
    have h := initializeBodiesPositions_capsule exampleConstants
      (id (construct exampleConstants originTransforms).transform) 0 0
      (by decide) (by decide)
    have hidx : capsuleIndex exampleConstants 0 0 = 0 := rfl
    rw [hidx, ropeInitPosition_zero] at h
    rw [h]
    ext <;> simp [exampleConstants]
    norm_num
  have h1 : ((reset exampleConstants id (construct exampleConstants originTransforms)).transform
      (Body.capsule 1)).position = ⟨-23 / 4, 29 / 2, 0⟩ := by
    rw [reset_transform_capsule, if_pos (by decide)]
    ext <;> simp [exampleConstants] <;> norm_num
  refine ⟨by decide, h0, h1, ?_, ?_⟩
  · rw [h0, h1]
    norm_num [distSq]
  · rw [h0, h1]
    norm_num [distSq, exampleConstants]

/-! ## The torque counter -/

theorem updatePhysics_nbTorqueIterations (w : Nat) (step : Transforms → Transforms)
    (s : Scene) : (updatePhysics w step s).nbTorqueIterations = s.nbTorqueIterations := by
  unfold updatePhysics sceneDemoUpdatePhysics updatePhysicsBeforeStep applyLocalTorque
  split <;> rfl

theorem updatePhysics_nbIterations (w : Nat) (step : Transforms → Transforms) (s : Scene) :
    (updatePhysics w step s).nbIterations = (s.nbIterations + 1) % 2 ^ w := by
  unfold updatePhysics sceneDemoUpdatePhysics updatePhysicsBeforeStep applyLocalTorque
  split <;> rfl

/-- The bound `nbTorqueIterations` keeps the value 200 the constructor gives it. -/
theorem run_nbTorqueIterations (c : Constants) (w : Nat) (base step : Transforms → Transforms)
    (s : Scene) (events : List Event) :
    (run c w base step s events).nbTorqueIterations = s.nbTorqueIterations := by
  unfold run
  induction events generalizing s with
  | nil => rfl
  | cons e events ih =>
    rw [List.foldl_cons, ih]
    cases e with
    | updatePhysics => exact updatePhysics_nbTorqueIterations w step s
    | reset => exact (reset_nbIterations c base s).2

/-- The counter is zero after construction and after every `reset`. -/
theorem run_nbIterations_fresh (c : Constants) (w : Nat) (base step : Transforms → Transforms)
    (t0 : Transforms) (history : List Event)
    (h : history = [] ∨ history.getLast? = some Event.reset) :
    (run c w base step (construct c t0) history).nbIterations = 0 := by
  rcases h with rfl | h
  · rfl
  · obtain ⟨pre, rfl⟩ : ∃ pre, history = pre ++ [Event.reset] := by
      rcases List.eq_nil_or_concat history with rfl | ⟨pre, e, rfl⟩
      · simp at h
      · rw [List.concat_eq_append] at h ⊢
        rw [List.getLast?_concat] at h
        exact ⟨pre, by rw [Option.some.inj h]⟩
    unfold run
    rw [List.foldl_append]
    exact (reset_nbIterations c base _).1

/-- The counter after `k` calls of `updatePhysics` on a scene whose counter is zero. -/
theorem run_updates_nbIterations (c : Constants) (w : Nat) (base step : Transforms → Transforms)
    (s : Scene) (h0 : s.nbIterations = 0) (k : Nat) :
    (run c w base step s (List.replicate k Event.updatePhysics)).nbIterations = k % 2 ^ w := by
  induction k with
  | zero => rw [Nat.zero_mod]; exact h0
  | succ k ih =>
    unfold run at ih ⊢
    rw [List.replicate_succ', List.foldl_append]
    show (updatePhysics w step _).nbIterations = _
    rw [updatePhysics_nbIterations, ih, Nat.mod_add_mod]

/-- What one call of `updatePhysics` does, from the value of the counter. -/
theorem updatePhysicsBeforeStep_calls (w : Nat) (s : Scene) :
    (updatePhysicsBeforeStep w s).calls = s.calls ++
      (if s.nbIterations < s.nbTorqueIterations then
        [Call.applyLocalTorque Body.box2 ⟨0, 1000, 0⟩] else []) ∧
    (updatePhysicsBeforeStep w s).nbIterations = (s.nbIterations + 1) % 2 ^ w := by
  unfold updatePhysicsBeforeStep applyLocalTorque
  split <;> simp

/-- Claim C10, amended. Count the calls of `updatePhysics` from construction or
from the latest `reset`, `k = 1, 2, ...`, and let the counter `nbIterations` have
`w` bits. As long as `k < 2 ^ w`, the `k`-th call applies the local torque
`(0, 1000, 0)` to box 2 if and only if `k ≤ 200`, and it increases
`nbIterations` by exactly 1, from `k - 1` to `k`, before it steps the world. -/
theorem updatePhysics_kth_call (c : Constants) (w : Nat) (base step : Transforms → Transforms)
    (t0 : Transforms) (history : List Event) (k : Nat)
    (hfresh : history = [] ∨ history.getLast? = some Event.reset)
    (hk1 : 1 ≤ k) (hk : k < 2 ^ w) :
    (run c w base step (construct c t0)
        (history ++ List.replicate (k - 1) Event.updatePhysics)).nbIterations = k - 1 ∧
    (updatePhysicsBeforeStep w (run c w base step (construct c t0)
        (history ++ List.replicate (k - 1) Event.updatePhysics))).calls
      = (run c w base step (construct c t0)
          (history ++ List.replicate (k - 1) Event.updatePhysics)).calls
        ++ (if k ≤ 200 then [Call.applyLocalTorque Body.box2 ⟨0, 1000, 0⟩] else []) ∧
    (updatePhysicsBeforeStep w (run c w base step (construct c t0)
        (history ++ List.replicate (k - 1) Event.updatePhysics))).nbIterations
      = (run c w base step (construct c t0)
          (history ++ List.replicate (k - 1) Event.updatePhysics)).nbIterations + 1 ∧
    updatePhysics w step (run c w base step (construct c t0)
        (history ++ List.replicate (k - 1) Event.updatePhysics))
      = sceneDemoUpdatePhysics step (updatePhysicsBeforeStep w
          (run c w base step (construct c t0)
            (history ++ List.replicate (k - 1) Event.updatePhysics))) ∧
    (updatePhysics w step (run c w base step (construct c t0)
        (history ++ List.replicate (k - 1) Event.updatePhysics))).calls
      = (run c w base step (construct c t0)
          (history ++ List.replicate (k - 1) Event.updatePhysics)).calls
        ++ (if k ≤ 200 then [Call.applyLocalTorque Body.box2 ⟨0, 1000, 0⟩] else [])
        ++ [Call.sceneDemoUpdatePhysics] ∧
    (updatePhysics w step (run c w base step (construct c t0)
        (history ++ List.replicate (k - 1) Event.updatePhysics))).nbIterations = k := by
  have hsplit : run c w base step (construct c t0)
      (history ++ List.replicate (k - 1) Event.updatePhysics)
      = run c w base step (run c w base step (construct c t0) history)
          (List.replicate (k - 1) Event.updatePhysics) := by
    unfold run
    rw [List.foldl_append]
  have hn : (run c w base step (construct c t0)
      (history ++ List.replicate (k - 1) Event.updatePhysics)).nbIterations = k - 1 := by
    rw [hsplit, run_updates_nbIterations c w base step _
      (run_nbIterations_fresh c w base step t0 history hfresh) (k - 1)]
    exact Nat.mod_eq_of_lt (by omega)
  have ht : (run c w base step (construct c t0)
      (history ++ List.replicate (k - 1) Event.updatePhysics)).nbTorqueIterations = 200 := by
    rw [run_nbTorqueIterations]
    rfl
  obtain ⟨hcalls, hincr⟩ := updatePhysicsBeforeStep_calls w
    (run c w base step (construct c t0) (history ++ List.replicate (k - 1) Event.updatePhysics))
  have hmod : (k - 1 + 1) % 2 ^ w = k - 1 + 1 := Nat.mod_eq_of_lt (by omega)
  have htorque : (updatePhysicsBeforeStep w (run c w base step (construct c t0)
      (history ++ List.replicate (k - 1) Event.updatePhysics))).calls
      = (run c w base step (construct c t0)
          (history ++ List.replicate (k - 1) Event.updatePhysics)).calls
        ++ (if k ≤ 200 then [Call.applyLocalTorque Body.box2 ⟨0, 1000, 0⟩] else []) := by
    rw [hcalls, hn, ht]
    by_cases h : k ≤ 200
    · rw [if_pos (by omega), if_pos h]
    · rw [if_neg (by omega), if_neg h]
  refine ⟨hn, htorque, ?_, rfl, ?_, ?_⟩
  · rw [hincr, hn, hmod]
  · show (updatePhysicsBeforeStep w _).calls ++ [Call.sceneDemoUpdatePhysics] = _
    rw [htorque]
  · show (updatePhysicsBeforeStep w _).nbIterations = k
    rw [hincr, hn, hmod]
    omega

/-- Claim C10 fails once the counter wraps. With a counter of 32 bits, the call
number `2 ^ 32 = 4294967296` after construction brings `nbIterations` from
`4294967295` back to 0 instead of increasing it, and the call number
`2 ^ 32 + 1 = 4294967297`, which is above 200, applies the torque to box 2
again. -/
theorem updatePhysics_torque_after_wrap :
    (run exampleConstants 32 id id (construct exampleConstants originTransforms)
        (List.replicate 4294967295 Event.updatePhysics)).nbIterations = 4294967295 ∧
    (updatePhysics 32 id (run exampleConstants 32 id id
        (construct exampleConstants originTransforms)
        (List.replicate 4294967295 Event.updatePhysics))).nbIterations = 0 ∧
    (updatePhysicsBeforeStep 32 (run exampleConstants 32 id id
        (construct exampleConstants originTransforms)
        (List.replicate 4294967296 Event.updatePhysics))).calls
      = (run exampleConstants 32 id id (construct exampleConstants originTransforms)
          (List.replicate 4294967296 Event.updatePhysics)).calls
        ++ [Call.applyLocalTorque Body.box2 ⟨0, 1000, 0⟩] ∧
    ¬ (4294967297 ≤ 200) := by
  have ha := run_updates_nbIterations exampleConstants 32 id id
    (construct exampleConstants originTransforms) rfl 4294967295
  have hb := run_updates_nbIterations exampleConstants 32 id id
    (construct exampleConstants originTransforms) rfl 4294967296
  have ht := run_nbTorqueIterations exampleConstants 32 id id
    (construct exampleConstants originTransforms)
    (List.replicate 4294967296 Event.updatePhysics)
  have ht' : (construct exampleConstants originTransforms).nbTorqueIterations = 200 := rfl
  rw [ht'] at ht
  have hma : 4294967295 % 2 ^ 32 = 4294967295 := by norm_num
  have hmb : 4294967296 % 2 ^ 32 = 0 := by norm_num
  rw [hma] at ha
  rw [hmb] at hb
  refine ⟨ha, ?_, ?_, by norm_num⟩
  · rw [updatePhysics_nbIterations, ha]
    norm_num
  · rw [(updatePhysicsBeforeStep_calls 32 _).1, hb, ht, if_pos (by norm_num)]

end RopeScene

/-! ## The object sets of `PhysicsCommon` -/

namespace reactphysics3d

theorem objects_create (pc : PhysicsCommon) (k k' : Kind) (p : Ptr) :
    (pc.create k p).objects k' = if k' = k then (pc.objects k).insert p else pc.objects k' := by
  cases k <;> cases k' <;> rfl

theorem objects_destroy (pc : PhysicsCommon) (k k' : Kind) (p : Ptr) :
    (pc.destroy k p).objects k' =
      if k' = k then (pc.objects k).filter (fun q => q ≠ p) else pc.objects k' := by
  cases k <;> cases k' <;> rfl

theorem after_concat (ops : List Op) (op : Op) :
    PhysicsCommon.after (ops ++ [op]) = (PhysicsCommon.after ops).apply op := by
  unfold PhysicsCommon.after
  rw [List.foldl_append]
  rfl

/-- The effect of one more call on "created and not destroyed since". -/
theorem createdNotDestroyed_concat (ops : List Op) (op : Op) (k : Kind) (p : Ptr) :
    CreatedNotDestroyed (ops ++ [op]) k p ↔
      op = Op.create k p ∨ (CreatedNotDestroyed ops k p ∧ op ≠ Op.destroy k p) := by
  constructor
  · rintro ⟨pre, post, heq, hpost⟩
    rcases List.eq_nil_or_concat post with rfl | ⟨post', x, rfl⟩
    · left
      have h : ops ++ [op] = pre ++ [Op.create k p] := heq
      exact (List.append_inj' h rfl).2 |> List.singleton_inj.1
    · right
      rw [List.concat_eq_append] at heq hpost
      have h : ops ++ [op] = (pre ++ Op.create k p :: post') ++ [x] := by
        rw [heq]; simp
      have h1 := (List.append_inj' h rfl).1
      have h2 : op = x := List.singleton_inj.1 (List.append_inj' h rfl).2
      rw [List.mem_append, not_or] at hpost
      refine ⟨⟨pre, post', h1, hpost.1⟩, ?_⟩
      rw [h2]
      intro hx
      exact hpost.2 (by rw [hx]; exact List.mem_singleton_self _)
  · rintro (rfl | ⟨⟨pre, post, rfl, hpost⟩, hne⟩)
    · exact ⟨ops, [], rfl, List.not_mem_nil _⟩
    · refine ⟨pre, post ++ [op], by simp, ?_⟩
      rw [List.mem_append, not_or]
      exact ⟨hpost, fun h => hne (List.mem_singleton.1 h).symm⟩

/-- Before `release`, a set holds exactly the objects created and not destroyed
since. -/
theorem mem_objects_after (ops : List Op) (k : Kind) (p : Ptr) :
    p ∈ (PhysicsCommon.after ops).objects k ↔ CreatedNotDestroyed ops k p := by
  induction ops using List.reverseRecOn with
  | nil =>
    constructor
    · intro h
      cases k <;> simp [PhysicsCommon.after, PhysicsCommon.new, PhysicsCommon.objects] at h
    · rintro ⟨pre, post, h, _⟩
      simp at h
  | append_singleton ops op ih =>
    rw [after_concat, createdNotDestroyed_concat, ← ih]
    cases op with
    | create k' p' =>
      show p ∈ ((PhysicsCommon.after ops).create k' p').objects k ↔ _
      rw [objects_create]
      by_cases hk : k = k'
      · subst hk
        rw [if_pos rfl, List.mem_insert_iff]
        constructor
        · rintro (rfl | h)
          · exact Or.inl rfl
          · exact Or.inr ⟨h, by simp⟩
        · rintro (h | ⟨h, _⟩)
          · left
            injection h with _ hp
            exact hp.symm
          · exact Or.inr h
      · rw [if_neg hk]
        constructor
        · intro h
          exact Or.inr ⟨h, by simp⟩
        · rintro (h | ⟨h, _⟩)
          · injection h with hk' _
            exact absurd hk'.symm hk
          · exact h
    | destroy k' p' =>
      show p ∈ ((PhysicsCommon.after ops).destroy k' p').objects k ↔ _
      rw [objects_destroy]
      by_cases hk : k = k'
      · subst hk
        rw [if_pos rfl, List.mem_filter]
        constructor
        · rintro ⟨h, hne⟩
          refine Or.inr ⟨h, ?_⟩
          intro heq
          injection heq with _ hp
          simp [hp] at hne
        · rintro (h | ⟨h, hne⟩)
          · cases h
          · refine ⟨h, ?_⟩
            have : p ≠ p' := by
              intro hp
              exact hne (by rw [hp])
            simpa using this
      · rw [if_neg hk]
        constructor
        · intro h
          refine Or.inr ⟨h, ?_⟩
          intro heq
          injection heq with hk' _
          exact hk hk'.symm
        · rintro (h | ⟨h, _⟩)
          · cases h
          · exact h

/-- A set never holds an object twice. -/
theorem nodup_objects_after (ops : List Op) (k : Kind) :
    ((PhysicsCommon.after ops).objects k).Nodup := by
  induction ops using List.reverseRecOn generalizing k with
  | nil => cases k <;> exact List.nodup_nil
  | append_singleton ops op ih =>
    rw [after_concat]
    cases op with
    | create k' p' =>
      show (((PhysicsCommon.after ops).create k' p').objects k).Nodup
      rw [objects_create]
      split
      · exact List.Nodup.insert (ih k')
      · exact ih k
    | destroy k' p' =>
      show (((PhysicsCommon.after ops).destroy k' p').objects k).Nodup
      rw [objects_destroy]
      split
      · exact List.Nodup.filter _ (ih k')
      · exact ih k

/-- Destroying the objects of a list, one after the other. -/
theorem objects_foldl_destroy (k k' : Kind) (l : List Ptr) (pc : PhysicsCommon) :
    (l.foldl (fun pc p => pc.destroy k p) pc).objects k' =
      if k' = k then (pc.objects k).filter (fun q => q ∉ l) else pc.objects k' := by
  induction l generalizing pc with
  | nil => split <;> simp_all
  | cons a l ih =>
    rw [List.foldl_cons, ih, objects_destroy, objects_destroy]
    by_cases hk : k' = k
    · rw [if_pos hk, if_pos hk, if_pos rfl, List.filter_filter]
      apply List.filter_congr
      intro q _
      simp [Bool.and_comm]
    · rw [if_neg hk, if_neg hk, if_neg hk]

/-- The loop of `release` over one kind empties the set of that kind and leaves
the other sets as they are. -/
theorem objects_destroyAll (pc : PhysicsCommon) (k k' : Kind) :
    (pc.destroyAll k).objects k' = if k' = k then [] else pc.objects k' := by
  unfold PhysicsCommon.destroyAll
  rw [objects_foldl_destroy]
  split
  · rw [List.filter_eq_nil_iff]
    intro q hq
    simp [hq]
  · rfl

theorem objects_foldl_destroyAll (kinds : List Kind) (pc : PhysicsCommon) (k : Kind) :
    (kinds.foldl PhysicsCommon.destroyAll pc).objects k =
      if k ∈ kinds then [] else pc.objects k := by
  induction kinds generalizing pc with
  | nil => simp
  | cons k0 kinds ih =>
    rw [List.foldl_cons, ih, objects_destroyAll]
    by_cases h1 : k ∈ kinds
    · rw [if_pos h1, if_pos (List.mem_cons_of_mem _ h1)]
    · rw [if_neg h1]
      by_cases h2 : k = k0
      · rw [if_pos h2, if_pos (by rw [h2]; exact List.mem_cons_self _ _)]
      · rw [if_neg h2, if_neg (by simp [h1, h2])]

/-- Claim C2. `release` destroys and releases everything that has been allocated:
for every sequence of `create*` and `destroy*` calls on a `PhysicsCommon`, after
`release` each of its object sets (physics worlds, the six kinds of shapes,
polyhedron meshes, triangle meshes, loggers, profilers) is empty, and before
`release` each set holds, once, exactly the objects created and not destroyed
since. -/
theorem release_empties_every_set (ops : List Op) :
    (∀ k, (PhysicsCommon.after ops).release.objects k = []) ∧
    (∀ k p, p ∈ (PhysicsCommon.after ops).objects k ↔ CreatedNotDestroyed ops k p) ∧
    (∀ k, ((PhysicsCommon.after ops).objects k).Nodup) := by
  refine ⟨?_, mem_objects_after ops, nodup_objects_after ops⟩
  intro k
  unfold PhysicsCommon.release
  rw [objects_foldl_destroyAll]
  cases k <;> simp

end reactphysics3d

/-! ## Concrete instances -/

namespace RopeScene

/-- Claim C6 on five ropes of twenty capsules: a hundred joints, one joint between
capsules 5 and 6 of rope 1, one joint between the last capsule of rope 1 and
box 2. -/
theorem createJoints_simple_chain_witness :
    1 ≤ exampleConstants.NB_CAPSULES_PER_ROPE ∧
    (createJoints exampleConstants originTransforms).length
      = exampleConstants.NB_ROPES * exampleConstants.NB_CAPSULES_PER_ROPE ∧
    (createJoints exampleConstants originTransforms).countP (fun j =>
      links j (Body.capsule (capsuleIndex exampleConstants 1 5))
        (Body.capsule (capsuleIndex exampleConstants 1 (5 + 1)))) = 1 ∧
    (createJoints exampleConstants originTransforms).countP (fun j =>
      links j (Body.capsule (capsuleIndex exampleConstants 1
        (exampleConstants.NB_CAPSULES_PER_ROPE - 1)))
        (if 1 = 0 then Body.box1 else Body.box2)) = 1 :=
  ⟨by decide,
    (createJoints_simple_chain exampleConstants originTransforms (by decide)).1,
    (createJoints_simple_chain exampleConstants originTransforms (by decide)).2.1 1 5
      (by decide) (by decide),
    ((createJoints_simple_chain exampleConstants originTransforms (by decide)).2.2.1 1
      (by decide)).2⟩

/-- Claim C7 on five ropes of twenty capsules: capsule 5 of rope 1 is connected to
box 2, and capsule 3 of rope 0 is not. -/
theorem createJoints_two_groups_witness :
    1 ≤ exampleConstants.NB_CAPSULES_PER_ROPE ∧
    Connected (createJoints exampleConstants originTransforms)
      (Body.capsule (capsuleIndex exampleConstants 1 5)) Body.box2 ∧
    ¬ Connected (createJoints exampleConstants originTransforms) (Body.capsule 3) Body.box2 :=
  ⟨by decide,
    ((createJoints_two_groups exampleConstants originTransforms (by decide)).2.2.2 1 5
      (by decide) (by decide) (by decide)).2,
    (createJoints_two_groups exampleConstants originTransforms (by decide)).2.1
      (Body.capsule 3) Body.box2 (by decide) (by decide)⟩

/-- Claim C8 on capsule 5 of rope 1, five ropes of twenty capsules. -/
theorem initializeBodiesPositions_rest_pose_witness :
    1 < exampleConstants.NB_ROPES ∧ 5 < exampleConstants.NB_CAPSULES_PER_ROPE ∧
    (initializeBodiesPositions exampleConstants originTransforms
        (Body.capsule (capsuleIndex exampleConstants 1 5))).position
      = ⟨(ropeInitPosition exampleConstants 1).x,
          15 - (((5 : ℕ) : ℚ) + 1) * exampleConstants.CAPSULE_HEIGHT,
          (ropeInitPosition exampleConstants 1).z⟩ :=
  ⟨by decide, by decide,
    (initializeBodiesPositions_rest_pose exampleConstants originTransforms 1 5
      (by decide) (by decide)).1⟩

/-- Claim C9 on the joint between the last capsule of rope 0 and box 1. -/
theorem createJoints_collision_disabled_witness :
    boxJoint exampleConstants originTransforms 0
      ∈ createJoints exampleConstants originTransforms ∧
    (boxJoint exampleConstants originTransforms 0).isCollisionEnabled = false ∧
    isPairDisabled (createJoints exampleConstants originTransforms)
      (boxJoint exampleConstants originTransforms 0).body1
      (boxJoint exampleConstants originTransforms 0).body2 = true :=
  have hmem : boxJoint exampleConstants originTransforms 0
      ∈ createJoints exampleConstants originTransforms := by
    rw [createJoints_eq_flatMap, List.mem_flatMap]
    exact ⟨0, List.mem_range.2 (by decide),
      List.mem_append_right _ (List.mem_singleton_self _)⟩
  ⟨hmem, createJoints_collision_disabled exampleConstants originTransforms _ hmem⟩

/-- Claim C4 on five ropes of twenty capsules of height `1 / 2`: after `reset`
capsule 19 of rope 0 hangs at `(-5, 15 - 20 * (1 / 2), 0)`. -/
theorem reset_leaves_last_capsule_witness :
    1 ≤ exampleConstants.NB_ROPES ∧ 2 ≤ exampleConstants.NB_CAPSULES_PER_ROPE ∧
    (reset exampleConstants id (construct exampleConstants originTransforms)).transform
        (Body.capsule (exampleConstants.NB_CAPSULES_PER_ROPE - 1))
      = ⟨⟨-5, 15 - (exampleConstants.NB_CAPSULES_PER_ROPE : ℚ)
            * exampleConstants.CAPSULE_HEIGHT, 0⟩, Quaternion.identity⟩ :=
  ⟨by decide, by decide,
    (reset_leaves_last_capsule exampleConstants id
      (construct exampleConstants originTransforms) (by decide) (by decide)).1⟩

/-- Claim C5, amended, on capsules 3 and 4 of rope 0, five ropes of twenty
capsules. -/
theorem reset_keeps_rest_distance_witness :
    0 < exampleConstants.NB_ROPES ∧ 1 ≤ 3 ∧ 3 + 2 < exampleConstants.NB_CAPSULES_PER_ROPE ∧
    distSq
      ((reset exampleConstants id (construct exampleConstants originTransforms)).transform
        (Body.capsule 3)).position
      ((reset exampleConstants id (construct exampleConstants originTransforms)).transform
        (Body.capsule (3 + 1))).position = exampleConstants.CAPSULE_HEIGHT ^ 2 :=
  ⟨by decide, by decide, by decide,
    (reset_keeps_rest_distance exampleConstants id originTransforms
      (construct exampleConstants originTransforms) 3 (by decide) (by decide) (by decide)).2.1⟩

/-- Claim C10, amended, on the call number 201 after a `reset`, with a counter of 32
bits: the call applies no torque. -/
theorem updatePhysics_kth_call_witness :
    ([Event.updatePhysics, Event.reset] = [] ∨
      [Event.updatePhysics, Event.reset].getLast? = some Event.reset) ∧
    1 ≤ 201 ∧ 201 < 2 ^ 32 ∧
    (updatePhysicsBeforeStep 32 (run exampleConstants 32 id id
        (construct exampleConstants originTransforms)
        ([Event.updatePhysics, Event.reset]
          ++ List.replicate (201 - 1) Event.updatePhysics))).calls
      = (run exampleConstants 32 id id (construct exampleConstants originTransforms)
          ([Event.updatePhysics, Event.reset]
            ++ List.replicate (201 - 1) Event.updatePhysics)).calls
        ++ (if 201 ≤ 200 then [Call.applyLocalTorque Body.box2 ⟨0, 1000, 0⟩] else []) :=
  ⟨Or.inr rfl, by decide, by norm_num,
    (updatePhysics_kth_call exampleConstants 32 id id originTransforms
      [Event.updatePhysics, Event.reset] 201 (Or.inr rfl) (by decide) (by norm_num)).2.1⟩

end RopeScene
